import Mathlib

/-!
# Table-Tennis-Game: the match state machine, serve rules and paddle/ball physics

Shallow embedding of `src/tt.js` (class `TableTennisGame`).

* `Game` holds the discrete half of the object: phase, settings, score, sets,
  gameStats and serving.  The methods `isDeuce`, `checkSetWin`, `updateServing`,
  `endMatch`, `endSet`, `scorePoint`, `resetServing`, `newGame` are translated
  field by field.  Calls that only touch the DOM (`updateScoreboard`,
  `updateServeIndicator`, `updateMatchHistory`, `showOverlay`, CSS animations) and
  `resetBall` (which writes `ball.x`, `ball.y`, `ball.speedX`, `ball.speedY` only)
  do not read or write any field of `Game` and are left out of these functions.
* `Board K` holds the physical half: canvas size, ball, the two paddles and the
  pressed keys.  Functions that only use field arithmetic and comparisons are
  written over an arbitrary linearly ordered field `K`, so they run on `ℚ`;
  `handlePaddleCollision` uses `Math.sqrt`, `Math.cos`, `Math.sin`, `Math.PI` and
  is stated over `ℝ`.

* `Session` puts the two halves together with `settings.difficulty`; the methods
  that touch both (`startGame`, `newGame`, `resetGame`, `scorePoint`, `updateBall`,
  `update`) are defined on it from the functions of the two halves, the values of
  `Math.random()` being arguments.

* `Frac`, `roundDouble`, `jsAdd`, `jsSub`, `jsDiv` model IEEE double arithmetic by
  exact integer computation; they are used where the rounding of a JavaScript number
  decides a claim (`relativeIntersectYDouble`).

Counters (scores, sets, points) start at `0` and are only incremented, so they are
natural numbers; where the source subtracts (`p1Score - p2Score`,
`pointsToWin - 1`) the subtraction is done in `ℤ`.
-/

namespace TableTennis

/-! ## Data model (constructor, lines 3-94) -/

/-- The string-valued field `gameState`: menu, playing, paused, gameOver. -/
inductive GameState where
  | menu
  | playing
  | paused
  | gameOver
  deriving DecidableEq, Repr

/-- The object `this.settings` (numeric part). -/
structure Settings where
  matchFormat : Nat
  pointsToWin : Nat
  serveSwitchPoints : Nat
  deuceServeSwitchPoints : Nat
  deriving DecidableEq, Repr

/-- The object `this.score`. -/
structure Score where
  player1 : Nat
  player2 : Nat
  deriving DecidableEq, Repr

/-- The object `this.sets`. -/
structure Sets where
  player1 : Nat
  player2 : Nat
  deriving DecidableEq, Repr

/-- One entry pushed on `gameStats.setsHistory` by `endSet`. -/
structure SetRecord where
  set : Nat
  player1Score : Nat
  player2Score : Nat
  winner : Nat
  deriving DecidableEq, Repr

/-- The object `this.gameStats`. -/
structure GameStats where
  currentSet : Nat
  currentRound : Nat
  totalPoints : Nat
  setsHistory : List SetRecord
  deriving DecidableEq, Repr

/-- The object `this.serving`. -/
structure Serving where
  currentServer : Nat
  pointsInService : Nat
  isDeuce : Bool
  deriving DecidableEq, Repr

/-- The discrete fields of a `TableTennisGame` object. -/
structure Game where
  gameState : GameState
  gameRunning : Bool
  settings : Settings
  score : Score
  sets : Sets
  gameStats : GameStats
  serving : Serving
  deriving DecidableEq, Repr

/-- The settings written by the constructor (lines 14-20). -/
def defaultSettings : Settings :=
  { matchFormat := 5, pointsToWin := 11, serveSwitchPoints := 2, deuceServeSwitchPoints := 1 }

/-- The discrete fields as the constructor leaves them (lines 9-74; `initializeGame`
at line 88 recomputes `pointsInService = 0`, `isDeuce = false`). -/
def initial : Game :=
  { gameState := GameState.menu
    gameRunning := false
    settings := defaultSettings
    score := { player1 := 0, player2 := 0 }
    sets := { player1 := 0, player2 := 0 }
    gameStats := { currentSet := 1, currentRound := 1, totalPoints := 0, setsHistory := [] }
    serving := { currentServer := 1, pointsInService := 0, isDeuce := false } }

/-! ## Serve rules and match state machine (lines 371-508) -/

/-- Method `isDeuce` (lines 505-508). -/
def isDeuce (g : Game) : Bool :=
  decide ((g.score.player1 : Int) ≥ (g.settings.pointsToWin : Int) - 1) &&
  decide ((g.score.player2 : Int) ≥ (g.settings.pointsToWin : Int) - 1)

/-- Method `checkSetWin` (lines 397-404). -/
def checkSetWin (g : Game) : Bool :=
  let p1Score : Int := g.score.player1
  let p2Score : Int := g.score.player2
  (decide (p1Score ≥ (g.settings.pointsToWin : Int)) && decide (p1Score - p2Score ≥ 2)) ||
  (decide (p2Score ≥ (g.settings.pointsToWin : Int)) && decide (p2Score - p1Score ≥ 2))

/-- The expression `currentServer === 1 ? 2 : 1` (lines 434 and 498). -/
def otherServer (currentServer : Nat) : Nat :=
  if currentServer = 1 then 2 else 1

/-- Method `updateServing` (lines 475-503). -/
def updateServing (g : Game) : Game :=
  let g1 : Game :=
    { g with serving := { g.serving with pointsInService := g.serving.pointsInService + 1 } }
  let wasDeuce := g1.serving.isDeuce
  let g2 : Game := { g1 with serving := { g1.serving with isDeuce := isDeuce g1 } }
  let g3 : Game :=
    if g2.serving.isDeuce && !wasDeuce then
      { g2 with serving := { g2.serving with pointsInService := 0 } }
    else g2
  let shouldSwitch : Bool :=
    if g3.serving.isDeuce then
      decide (g3.serving.pointsInService ≥ g3.settings.deuceServeSwitchPoints)
    else
      decide (g3.serving.pointsInService ≥ g3.settings.serveSwitchPoints)
  if shouldSwitch then
    { g3 with serving :=
        { g3.serving with
          currentServer := otherServer g3.serving.currentServer
          pointsInService := 0 } }
  else g3

/-- The local `matchWinner` of `endMatch` (line 442). -/
def matchWinner (g : Game) : Nat :=
  if g.sets.player1 > g.sets.player2 then 1 else 2

/-- Method `endMatch` (lines 441-461): the two assignments to fields. -/
def endMatch (g : Game) : Game :=
  { g with gameState := GameState.gameOver, gameRunning := false }

/-- Method `showSetWinMessage` (lines 463-473): it clears `gameRunning`. -/
def showSetWinMessage (g : Game) : Game :=
  { g with gameRunning := false }

/-- The local `setsToWin = Math.ceil(matchFormat / 2)` of `endSet` (line 425).  On a
natural number the ceiling of the half is `(matchFormat + 1) / 2` with truncating
division; `setsToWin_eq_ceil` below proves it equal to `⌈matchFormat / 2⌉`. -/
def setsToWin (s : Settings) : Nat :=
  (s.matchFormat + 1) / 2

/-- Method `endSet` (lines 406-439). -/
def endSet (g : Game) : Game :=
  let winner : Nat := if g.score.player1 > g.score.player2 then 1 else 2
  let g1 : Game :=
    if winner = 1 then { g with sets := { g.sets with player1 := g.sets.player1 + 1 } }
    else { g with sets := { g.sets with player2 := g.sets.player2 + 1 } }
  let g2 : Game :=
    { g1 with gameStats :=
        { g1.gameStats with
          setsHistory := g1.gameStats.setsHistory ++
            [{ set := g1.gameStats.currentSet
               player1Score := g1.score.player1
               player2Score := g1.score.player2
               winner := winner }] } }
  if g2.sets.player1 ≥ setsToWin g2.settings ∨ g2.sets.player2 ≥ setsToWin g2.settings then
    endMatch g2
  else
    let g3 : Game :=
      { g2 with
        gameStats := { g2.gameStats with currentSet := g2.gameStats.currentSet + 1 }
        score := { player1 := 0, player2 := 0 }
        serving := { g2.serving with currentServer := otherServer g2.serving.currentServer } }
    showSetWinMessage g3

/-- Method `scorePoint` (lines 371-395).  Any `player` other than `1` takes the
`else` branch, as in the source. -/
def scorePoint (g : Game) (player : Nat) : Game :=
  let g1 : Game :=
    if player = 1 then { g with score := { g.score with player1 := g.score.player1 + 1 } }
    else { g with score := { g.score with player2 := g.score.player2 + 1 } }
  let g2 : Game :=
    { g1 with gameStats := { g1.gameStats with totalPoints := g1.gameStats.totalPoints + 1 } }
  let g3 := updateServing g2
  if checkSetWin g3 then endSet g3 else g3

/-- Method `resetServing` (lines 179-183). -/
def resetServing (g : Game) : Game :=
  let g1 : Game := { g with serving := { g.serving with pointsInService := 0 } }
  { g1 with serving := { g1.serving with isDeuce := isDeuce g1 } }

/-- Method `initializeGame` (lines 156-160); of its three calls only `resetServing`
writes discrete fields. -/
def initializeGame (g : Game) : Game :=
  resetServing g

/-- Method `newGame` (lines 229-245). -/
def newGame (g : Game) : Game :=
  let g1 : Game :=
    { g with
      score := { player1 := 0, player2 := 0 }
      sets := { player1 := 0, player2 := 0 }
      gameStats := { currentSet := 1, currentRound := 1, totalPoints := 0, setsHistory := [] } }
  let g2 : Game := { g1 with serving := { g1.serving with currentServer := 1 } }
  let g3 := initializeGame g2
  { g3 with gameState := GameState.menu, gameRunning := false }

/-- A sequence of `scorePoint` calls, the scoring players listed in order. -/
def play (g : Game) (players : List Nat) : Game :=
  players.foldl scorePoint g

/-- Every call of the sequence is made while the match is not over: the calls stop
at the first `gameOver`. -/
def stopsAtGameOver : Game → List Nat → Bool
  | _, [] => true
  | g, p :: ps => decide (g.gameState ≠ GameState.gameOver) && stopsAtGameOver (scorePoint g p) ps

/-- A best-of-three match with the other settings at their defaults. -/
def bestOfThree : Game :=
  { initial with settings := { defaultSettings with matchFormat := 3 } }

/-- Points of a match in which player 1 wins the first set 11-5 and the second 11-7. -/
def twoSetsToOne : List Nat :=
  List.replicate 5 2 ++ List.replicate 11 1 ++ List.replicate 7 2 ++ List.replicate 11 1

/-! ## Paddles and ball (lines 23-49, 174-177, 265-281, 345-369) -/

/-- The numeric fields of `this.ball`. -/
structure Ball (K : Type) where
  x : K
  y : K
  radius : K
  speedX : K
  speedY : K
  maxSpeed : K

/-- The numeric fields of `this.paddle1` and `this.paddle2`. -/
structure Paddle (K : Type) where
  x : K
  y : K
  width : K
  height : K
  speed : K

/-- The entries of `this.keys` that `update` reads; a key never pressed is
`undefined`, which is falsy, hence `false`. -/
structure Keys where
  w : Bool
  s : Bool
  arrowup : Bool
  arrowdown : Bool
  deriving DecidableEq, Repr

/-- The internal resolution `canvas.width`, `canvas.height`. -/
structure Canvas (K : Type) where
  width : K
  height : K

/-- The physical fields of a `TableTennisGame` object. -/
structure Board (K : Type) where
  canvas : Canvas K
  ball : Ball K
  paddle1 : Paddle K
  paddle2 : Paddle K
  keys : Keys

/-- The two objects `handlePaddleCollision` can be called with; the source tells
them apart by identity (`paddle === this.paddle1`). -/
inductive PaddleRef where
  | paddle1
  | paddle2
  deriving DecidableEq, Repr

section Field

variable {K : Type} [LinearOrderedField K]

/-- The object literals of the constructor (lines 23-49), the canvas at its internal
resolution 800 x 400 (lines 152-153), no key pressed. -/
def constructedBoard : Board K :=
  { canvas := { width := 800, height := 400 }
    ball := { x := 400, y := 200, radius := 8, speedX := 0, speedY := 0, maxSpeed := 8 }
    paddle1 := { x := 20, y := 150, width := 15, height := 100, speed := 8 }
    paddle2 := { x := 765, y := 150, width := 15, height := 100, speed := 8 }
    keys := { w := false, s := false, arrowup := false, arrowdown := false } }

/-- Method `resetPaddles` (lines 174-177). -/
def resetPaddles (b : Board K) : Board K :=
  let b1 : Board K :=
    { b with paddle1 := { b.paddle1 with y := (b.canvas.height - b.paddle1.height) / 2 } }
  { b1 with paddle2 := { b1.paddle2 with y := (b1.canvas.height - b1.paddle2.height) / 2 } }

/-- Method `updatePaddles` (lines 265-281). -/
def updatePaddles (b : Board K) : Board K :=
  let b1 : Board K :=
    if b.keys.w = true ∧ b.paddle1.y > 0 then
      { b with paddle1 := { b.paddle1 with y := b.paddle1.y - b.paddle1.speed } }
    else b
  let b2 : Board K :=
    if b1.keys.s = true ∧ b1.paddle1.y < b1.canvas.height - b1.paddle1.height then
      { b1 with paddle1 := { b1.paddle1 with y := b1.paddle1.y + b1.paddle1.speed } }
    else b1
  let b3 : Board K :=
    if b2.keys.arrowup = true ∧ b2.paddle2.y > 0 then
      { b2 with paddle2 := { b2.paddle2 with y := b2.paddle2.y - b2.paddle2.speed } }
    else b2
  if b3.keys.arrowdown = true ∧ b3.paddle2.y < b3.canvas.height - b3.paddle2.height then
    { b3 with paddle2 := { b3.paddle2 with y := b3.paddle2.y + b3.paddle2.speed } }
  else b3

/-- The paddle part of consecutive `update` ticks: before each tick the key events
leave `this.keys` as listed, then `updatePaddles` runs (line 259). -/
def paddleTicks (b : Board K) (pressed : List Keys) : Board K :=
  pressed.foldl (fun acc k => updatePaddles { acc with keys := k }) b

/-- The object the reference `r` stands for. -/
def Board.paddle (b : Board K) (r : PaddleRef) : Paddle K :=
  match r with
  | PaddleRef.paddle1 => b.paddle1
  | PaddleRef.paddle2 => b.paddle2

/-- Keys `w` and `arrowup` held down, `s` and `arrowdown` released. -/
def upKeys : Keys :=
  { w := true, s := false, arrowup := true, arrowdown := false }

/-- The constructed board with the ball just in front of paddle 1, moving left. -/
def incomingBoard : Board K :=
  { (constructedBoard : Board K) with
    ball := { x := 43, y := 180, radius := 8, speedX := -3, speedY := 4, maxSpeed := 8 } }

end Field

/-- The local `speed` of `handlePaddleCollision` (line 357): the Euclidean norm of
the ball's velocity. -/
noncomputable def ballSpeed (ball : Ball ℝ) : ℝ :=
  Real.sqrt (ball.speedX * ball.speedX + ball.speedY * ball.speedY)

/-- Method `handlePaddleCollision` (lines 345-369), in real arithmetic. -/
noncomputable def handlePaddleCollision (b : Board ℝ) (r : PaddleRef) : Board ℝ :=
  let paddle := b.paddle r
  let relativeIntersectY := (b.ball.y - (paddle.y + paddle.height / 2)) / (paddle.height / 2)
  let maxAngle := Real.pi / 3
  let angle := relativeIntersectY * maxAngle
  let direction : ℝ := if r = PaddleRef.paddle1 then 1 else -1
  let speed := ballSpeed b.ball
  let newSpeed := min (speed * 1.05) b.ball.maxSpeed
  let b1 : Board ℝ :=
    { b with ball :=
        { b.ball with
          speedX := Real.cos angle * newSpeed * direction
          speedY := Real.sin angle * newSpeed } }
  if direction = 1 then
    { b1 with ball := { b1.ball with x := paddle.x + paddle.width + b1.ball.radius } }
  else
    { b1 with ball := { b1.ball with x := paddle.x - b1.ball.radius } }

/-- The state after the first statements of `scorePoint` (lines 372-378): the score of
`player` and `totalPoints` incremented. -/
def awarded (g : Game) (player : Nat) : Game :=
  let g1 : Game :=
    if player = 1 then { g with score := { g.score with player1 := g.score.player1 + 1 } }
    else { g with score := { g.score with player2 := g.score.player2 + 1 } }
  { g1 with gameStats := { g1.gameStats with totalPoints := g1.gameStats.totalPoints + 1 } }

/-! ## Phase control, ball step, AI and the whole tick (lines 81-85, 156-202, 247-343) -/

/-- Method `startGame` (lines 185-190): the two assignments to discrete fields. -/
def startGame (g : Game) : Game :=
  { g with gameState := GameState.playing, gameRunning := true }

/-- Method `togglePause` (lines 192-202). -/
def togglePause (g : Game) : Game :=
  if g.gameState = GameState.playing then
    { g with gameState := GameState.paused, gameRunning := false }
  else if g.gameState = GameState.paused then
    { g with gameState := GameState.playing, gameRunning := true }
  else g

/-- Method `resetGame` (lines 247-254): the discrete fields. -/
def resetGame (g : Game) : Game :=
  let g1 : Game := { g with score := { player1 := 0, player2 := 0 } }
  let g2 := initializeGame g1
  { g2 with gameState := GameState.menu, gameRunning := false }

/-- The values of `settings.difficulty` that `aiSettings` has an entry for. -/
inductive Difficulty where
  | easy
  | medium
  | hard
  deriving DecidableEq, Repr

/-- One entry of `this.aiSettings`. -/
structure AIConfig (K : Type) where
  speed : K
  accuracy : K
  reactionTime : K

section Field

variable {K : Type} [LinearOrderedField K]

/-- The table `this.aiSettings` (lines 81-85). -/
def aiSettings (d : Difficulty) : AIConfig K :=
  match d with
  | Difficulty.easy => { speed := 0.05, accuracy := 0.7, reactionTime := 20 }
  | Difficulty.medium => { speed := 0.08, accuracy := 0.85, reactionTime := 15 }
  | Difficulty.hard => { speed := 0.12, accuracy := 0.95, reactionTime := 8 }

/-- Method `updateAI` (lines 283-301); `random` is the value of `Math.random()`. -/
def updateAI (b : Board K) (aiConfig : AIConfig K) (random : K) : Board K :=
  if b.keys.arrowup = false ∧ b.keys.arrowdown = false then
    let paddleCenter := b.paddle2.y + b.paddle2.height / 2
    let ballY := b.ball.y
    let difference := ballY - paddleCenter
    let moveAmount := difference * aiConfig.speed
    let randomFactor := (random - 0.5) * (1 - aiConfig.accuracy) * 50
    let newY := b.paddle2.y + moveAmount + randomFactor
    { b with paddle2 :=
        { b.paddle2 with y := max 0 (min newY (b.canvas.height - b.paddle2.height)) } }
  else b

/-- The first part of method `updateBall` (lines 304-311): the ball moves by its
velocity and bounces off the top and bottom walls. -/
def moveBall (b : Board K) : Board K :=
  let b1 : Board K := { b with ball := { b.ball with x := b.ball.x + b.ball.speedX } }
  let b2 : Board K := { b1 with ball := { b1.ball with y := b1.ball.y + b1.ball.speedY } }
  if b2.ball.y ≤ b2.ball.radius ∨ b2.ball.y ≥ b2.canvas.height - b2.ball.radius then
    let b3 : Board K := { b2 with ball := { b2.ball with speedY := -b2.ball.speedY } }
    { b3 with ball :=
        { b3.ball with
          y := max b3.ball.radius (min b3.ball.y (b3.canvas.height - b3.ball.radius)) } }
  else b2

end Field

/-- Method `resetBall` (lines 162-172) on the board; `random` is the value of
`Math.random()`, `currentServer` the field `serving.currentServer`. -/
noncomputable def resetBall (b : Board ℝ) (currentServer : Nat) (random : ℝ) : Board ℝ :=
  let b1 : Board ℝ := { b with ball := { b.ball with x := b.canvas.width / 2 } }
  let b2 : Board ℝ := { b1 with ball := { b1.ball with y := b1.canvas.height / 2 } }
  let angle := (random - 0.5) * Real.pi / 3
  let speed : ℝ := 4
  { b2 with ball :=
      { b2.ball with
        speedX := Real.cos angle * speed * (if currentServer = 1 then 1 else -1)
        speedY := Real.sin angle * speed } }

/-- Method `checkCollisions` (lines 323-343). -/
noncomputable def checkCollisions (b : Board ℝ) : Board ℝ :=
  let b1 : Board ℝ :=
    if b.ball.x - b.ball.radius ≤ b.paddle1.x + b.paddle1.width ∧
        b.ball.x + b.ball.radius ≥ b.paddle1.x ∧
        b.ball.y ≥ b.paddle1.y ∧
        b.ball.y ≤ b.paddle1.y + b.paddle1.height ∧
        b.ball.speedX < 0 then
      handlePaddleCollision b PaddleRef.paddle1
    else b
  if b1.ball.x + b1.ball.radius ≥ b1.paddle2.x ∧
      b1.ball.x - b1.ball.radius ≤ b1.paddle2.x + b1.paddle2.width ∧
      b1.ball.y ≥ b1.paddle2.y ∧
      b1.ball.y ≤ b1.paddle2.y + b1.paddle2.height ∧
      b1.ball.speedX > 0 then
    handlePaddleCollision b1 PaddleRef.paddle2
  else b1

/-- The whole object: the discrete fields, the physical fields and
`settings.difficulty`. -/
structure Session where
  game : Game
  board : Board ℝ
  difficulty : Difficulty

/-- Method `resetBall` on the whole object. -/
noncomputable def Session.resetBall (s : Session) (random : ℝ) : Session :=
  { s with board := TableTennis.resetBall s.board s.game.serving.currentServer random }

/-- Method `startGame` (lines 185-190) on the whole object. -/
noncomputable def Session.startGame (s : Session) (random : ℝ) : Session :=
  Session.resetBall { s with game := TableTennis.startGame s.game } random

/-- Method `togglePause` (lines 192-202) on the whole object. -/
def Session.togglePause (s : Session) : Session :=
  { s with game := TableTennis.togglePause s.game }

/-- Method `newGame` (lines 229-245) on the whole object: the discrete fields as in
`newGame`, then the two board calls of `initializeGame`; `resetBall` reads
`currentServer`, which `newGame` has set to 1 before. -/
noncomputable def Session.newGame (s : Session) (random : ℝ) : Session :=
  let s1 := Session.resetBall { s with game := TableTennis.newGame s.game } random
  { s1 with board := resetPaddles s1.board }

/-- Method `resetGame` (lines 247-254) on the whole object. -/
noncomputable def Session.resetGame (s : Session) (random : ℝ) : Session :=
  let s1 := Session.resetBall { s with game := TableTennis.resetGame s.game } random
  { s1 with board := resetPaddles s1.board }

/-- Method `scorePoint` (lines 371-395) on the whole object: the discrete fields as
in `scorePoint`, and `resetBall` when the point does not win the set. -/
noncomputable def Session.scorePoint (s : Session) (player : Nat) (random : ℝ) : Session :=
  let s1 : Session := { s with game := TableTennis.scorePoint s.game player }
  if checkSetWin (updateServing (awarded s.game player)) then s1
  else Session.resetBall s1 random

/-- Method `updateBall` (lines 303-321). -/
noncomputable def Session.updateBall (s : Session) (random : ℝ) : Session :=
  let s1 : Session := { s with board := moveBall s.board }
  if s1.board.ball.x < -s1.board.ball.radius then
    Session.scorePoint s1 2 random
  else if s1.board.ball.x > s1.board.canvas.width + s1.board.ball.radius then
    Session.scorePoint s1 1 random
  else s1

/-- Method `update` (lines 256-263); `randomServe` and `randomAI` are the values
`Math.random()` returns in `resetBall` and in `updateAI`. -/
noncomputable def Session.update (s : Session) (randomServe randomAI : ℝ) : Session :=
  if s.game.gameRunning = false then s
  else
    let s1 : Session := { s with board := updatePaddles s.board }
    let s2 := Session.updateBall s1 randomServe
    let s3 : Session := { s2 with board := checkCollisions s2.board }
    { s3 with board := updateAI s3.board (aiSettings s3.difficulty) randomAI }

/-- A key event: the entries of `this.keys` change. -/
def Session.setKeys (s : Session) (k : Keys) : Session :=
  { s with board := { s.board with keys := k } }

/-! ## IEEE double arithmetic for line 347 -/

/-- An exact fraction `num / den` with `den > 0`, kept unreduced so that it is
evaluated by integer arithmetic alone.  A finite JavaScript number is such a
fraction whose value fits 53 significant bits. -/
structure Frac where
  num : Int
  den : Nat
  deriving DecidableEq, Repr

/-- The integer `n` as a fraction. -/
def Frac.ofInt (n : Int) : Frac :=
  { num := n, den := 1 }

/-- Exact sum. -/
def Frac.add (a b : Frac) : Frac :=
  { num := a.num * b.den + b.num * a.den, den := a.den * b.den }

/-- Exact difference. -/
def Frac.sub (a b : Frac) : Frac :=
  { num := a.num * b.den - b.num * a.den, den := a.den * b.den }

/-- Exact quotient, for `b` different from zero. -/
def Frac.div (a b : Frac) : Frac :=
  { num := a.num * b.den * b.num.sign, den := a.den * b.num.natAbs }

/-- Comparison `a < b` of the values. -/
def Frac.lt (a b : Frac) : Prop :=
  a.num * b.den < b.num * a.den

/-- Comparison `a <= b` of the values. -/
def Frac.le (a b : Frac) : Prop :=
  a.num * b.den ≤ b.num * a.den

instance (a b : Frac) : Decidable (Frac.lt a b) := by
  unfold Frac.lt
  infer_instance

instance (a b : Frac) : Decidable (Frac.le a b) := by
  unfold Frac.le
  infer_instance

/-- The number of binary digits of `n` minus one, `floor (log2 n)`, for `n > 0`. -/
def floorLog2 : Nat → Nat → Nat
  | 0, _ => 0
  | fuel + 1, n => if n ≥ 2 then floorLog2 fuel (n / 2) + 1 else 0

/-- Rounding of IEEE 754 binary64 arithmetic: the double nearest to `q`, ties to the
even significand (the rounding every JavaScript `+`, `-`, `/` applies to its exact
result).  Valid in the normal range `2^-1022 <= |q| < 2^1024`: with `e` the exponent
of `q` (`2^e <= |q| < 2^(e+1)`) the quotient `|q| / 2^(e-52)` lies in
`[2^52, 2^53)` and is rounded to an integer. -/
def roundDouble (q : Frac) : Frac :=
  if q.num = 0 then { num := 0, den := 1 }
  else
    let n : Nat := q.num.natAbs
    let d : Nat := q.den
    let e0 : Int := (floorLog2 2000 n : Int) - (floorLog2 2000 d : Int)
    let fits : Bool :=
      if e0 ≥ 0 then decide (2 ^ e0.toNat * d ≤ n) else decide (d ≤ n * 2 ^ (-e0).toNat)
    let e : Int := if fits then e0 else e0 - 1
    let sh : Int := 52 - e
    let scaledNum : Nat := if sh ≥ 0 then n * 2 ^ sh.toNat else n
    let scaledDen : Nat := if sh ≥ 0 then d else d * 2 ^ (-sh).toNat
    let f : Nat := scaledNum / scaledDen
    let rem : Nat := scaledNum % scaledDen
    let r : Nat :=
      if 2 * rem < scaledDen then f
      else if 2 * rem > scaledDen then f + 1
      else if f % 2 = 0 then f
      else f + 1
    if sh ≥ 0 then { num := q.num.sign * r, den := 2 ^ sh.toNat }
    else { num := q.num.sign * (r * 2 ^ (-sh).toNat), den := 1 }

/-- JavaScript `a + b` on numbers. -/
def jsAdd (a b : Frac) : Frac := roundDouble (Frac.add a b)

/-- JavaScript `a - b` on numbers. -/
def jsSub (a b : Frac) : Frac := roundDouble (Frac.sub a b)

/-- JavaScript `a / b` on numbers, `b` different from zero. -/
def jsDiv (a b : Frac) : Frac := roundDouble (Frac.div a b)

/-- The local `relativeIntersectY` of `handlePaddleCollision` (line 347) as the
program computes it, every operation rounded to a double. -/
def relativeIntersectYDouble (ballY paddleY paddleHeight : Frac) : Frac :=
  jsDiv (jsSub ballY (jsAdd paddleY (jsDiv paddleHeight (Frac.ofInt 2))))
    (jsDiv paddleHeight (Frac.ofInt 2))

/-- The number the literal `14.001` denotes. -/
def y14001 : Frac :=
  roundDouble { num := 14001, den := 1000 }

/-! ## Predicates and sample inputs used in the statements -/

section Field

variable {K : Type} [LinearOrderedField K]

/-- The test of the first `if` of `checkCollisions` (lines 325-329). -/
def hitsPaddle1 (b : Board K) : Prop :=
  b.ball.x - b.ball.radius ≤ b.paddle1.x + b.paddle1.width ∧
    b.ball.x + b.ball.radius ≥ b.paddle1.x ∧
    b.ball.y ≥ b.paddle1.y ∧
    b.ball.y ≤ b.paddle1.y + b.paddle1.height ∧
    b.ball.speedX < 0

/-- The test of the second `if` of `checkCollisions` (lines 335-339). -/
def hitsPaddle2 (b : Board K) : Prop :=
  b.ball.x + b.ball.radius ≥ b.paddle2.x ∧
    b.ball.x - b.ball.radius ≤ b.paddle2.x + b.paddle2.width ∧
    b.ball.y ≥ b.paddle2.y ∧
    b.ball.y ≤ b.paddle2.y + b.paddle2.height ∧
    b.ball.speedX > 0

instance (b : Board K) : Decidable (hitsPaddle1 b) := by
  unfold hitsPaddle1
  infer_instance

instance (b : Board K) : Decidable (hitsPaddle2 b) := by
  unfold hitsPaddle2
  infer_instance

/-- The local `relativeIntersectY` of `handlePaddleCollision` (line 347) in exact
arithmetic, as `handlePaddleCollision` above uses it over the reals;
`relativeIntersectYDouble` is the same expression with every operation rounded to a
double. -/
def relativeIntersectY (b : Board K) (r : PaddleRef) : K :=
  (b.ball.y - ((b.paddle r).y + (b.paddle r).height / 2)) / ((b.paddle r).height / 2)

/-- The constructed board with the ball just in front of paddle 2, moving right. -/
def outgoingBoard : Board K :=
  { (constructedBoard : Board K) with
    ball := { x := 760, y := 220, radius := 8, speedX := 3, speedY := -4, maxSpeed := 8 } }

end Field

/-- The player a call `scorePoint(player)` gives the point to. -/
def scorer (player : Nat) : Nat :=
  if player = 1 then 1 else 2

/-- While the match is running the score of the current set does not yet satisfy the
win condition. -/
def NoWinInv (g : Game) : Prop :=
  g.gameState ≠ GameState.gameOver → checkSetWin g = false

/-- The state `g` with the two players' scores exchanged. -/
def swapScores (g : Game) : Game :=
  { g with score := { player1 := g.score.player2, player2 := g.score.player1 } }

/-- While the match is not over both set counts are below `setsToWin`; once it is
over one of them equals it and neither exceeds it. -/
def MatchInv (g : Game) : Prop :=
  (g.gameState = GameState.gameOver ↔
      (g.sets.player1 = setsToWin g.settings ∨ g.sets.player2 = setsToWin g.settings)) ∧
    g.sets.player1 ≤ setsToWin g.settings ∧ g.sets.player2 ≤ setsToWin g.settings

/-- While the match is running the history holds one record per finished set,
`currentSet - 1` of them; once it is over the last set is recorded as well and
`currentSet` has not moved on. -/
def HistoryInv (g : Game) : Prop :=
  (g.gameState ≠ GameState.gameOver →
      (g.gameStats.setsHistory.length : Int) = (g.gameStats.currentSet : Int) - 1) ∧
    (g.gameState = GameState.gameOver →
      g.gameStats.setsHistory.length = g.gameStats.currentSet)

/-- The player serving after `n` switches when player 1 served first. -/
def serverAfterSwitches (n : Nat) : Nat :=
  if n % 2 = 0 then 1 else 2

/-- The states after `0, 1, ..., ps.length` points are all outside deuce and in the
first set of the match. -/
def QuietFirstSet (g : Game) (ps : List Nat) : Prop :=
  ∀ i ≤ ps.length,
    isDeuce (play g (ps.take i)) = false ∧ (play g (ps.take i)).gameStats.setsHistory = []

instance (g : Game) (ps : List Nat) : Decidable (QuietFirstSet g ps) := by
  unfold QuietFirstSet
  infer_instance

/-- Ten points each: the first deuce of a set with `pointsToWin = 11`. -/
def tenAll : List Nat :=
  List.replicate 10 1 ++ List.replicate 10 2

/-- The states after `0, 1, ..., ps.length` further points are all in deuce and in the
same set as `g` (no record has been pushed). -/
def DeuceRun (g : Game) (ps : List Nat) : Prop :=
  ∀ i ≤ ps.length,
    isDeuce (play g (ps.take i)) = true ∧
      (play g (ps.take i)).gameStats.setsHistory = g.gameStats.setsHistory

instance (g : Game) (ps : List Nat) : Decidable (DeuceRun g ps) := by
  unfold DeuceRun
  infer_instance

/-- Nine points each, then one more for player 1: the score is 10-9. -/
def tenNine : List Nat :=
  List.replicate 9 1 ++ List.replicate 9 2 ++ [1]

/-- The session the constructor builds, with the board at its literal values. -/
noncomputable def constructedSession : Session :=
  { game := initial, board := constructedBoard, difficulty := Difficulty.medium }

/-- The flag `gameRunning` is true only in the phase `playing`. -/
def RunningInv (g : Game) : Prop :=
  g.gameRunning = true → g.gameState = GameState.playing

/-- The constructed session with the ball about to cross the left edge. -/
noncomputable def ballLeavingLeft : Session :=
  { constructedSession with
    board := { (constructedBoard : Board ℝ) with
      ball := { x := -5, y := 200, radius := 8, speedX := -4, speedY := 0, maxSpeed := 8 } } }

/-- The constructed session with the ball about to touch the top wall. -/
noncomputable def ballNearTop : Session :=
  { constructedSession with
    board := { (constructedBoard : Board ℝ) with
      ball := { x := 400, y := 10, radius := 8, speedX := 3, speedY := -4, maxSpeed := 8 } } }

/-- The constructed session after player 1 has won a best-of-five match with 33
points in a row. -/
noncomputable def finishedSession : Session :=
  { constructedSession with game := play (newGame initial) (List.replicate 33 1) }

/-- States the object can be in: the constructor leaves the discrete fields as in
`initial`; then any of the listed methods runs, with any value of `Math.random()`. -/
inductive Reachable : Session → Prop where
  | constructed (b : Board ℝ) (d : Difficulty) :
      Reachable { game := initial, board := b, difficulty := d }
  | startGame (s : Session) (random : ℝ) : Reachable s → Reachable (Session.startGame s random)
  | togglePause (s : Session) : Reachable s → Reachable (Session.togglePause s)
  | newGame (s : Session) (random : ℝ) : Reachable s → Reachable (Session.newGame s random)
  | resetGame (s : Session) (random : ℝ) : Reachable s → Reachable (Session.resetGame s random)
  | update (s : Session) (randomServe randomAI : ℝ) :
      Reachable s → Reachable (Session.update s randomServe randomAI)
  | scorePoint (s : Session) (player : Nat) (random : ℝ) :
      Reachable s → Reachable (Session.scorePoint s player random)
  | setKeys (s : Session) (k : Keys) : Reachable s → Reachable (Session.setKeys s k)

/-! ## Auxiliary facts -/

/-- The executable `setsToWin` is `Math.ceil(matchFormat / 2)`. -/
theorem setsToWin_eq_ceil (s : Settings) : setsToWin s = ⌈(s.matchFormat : ℚ) / 2⌉₊ := by
  unfold setsToWin
  symm
  rcases Nat.even_or_odd' s.matchFormat with ⟨k, hk | hk⟩
  · rw [hk]
    have h1 : ((2 * k : ℕ) : ℚ) / 2 = (k : ℕ) := by push_cast; ring
    rw [h1, Nat.ceil_natCast]
    omega
  · rw [hk]
    have h2 : (2 * k + 1 + 1) / 2 = k + 1 := by omega
    rw [h2, Nat.ceil_eq_iff (by omega)]
    push_cast
    constructor
    · linarith
    · linarith

/-- The fields `updateServing` leaves alone. -/
theorem updateServing_frame (g : Game) :
    (updateServing g).gameState = g.gameState ∧ (updateServing g).gameRunning = g.gameRunning ∧
    (updateServing g).settings = g.settings ∧ (updateServing g).score = g.score ∧
    (updateServing g).sets = g.sets ∧ (updateServing g).gameStats = g.gameStats := by
  simp only [updateServing]
  split_ifs <;> simp

theorem play_nil (g : Game) : play g [] = g := rfl

theorem play_cons (g : Game) (p : Nat) (ps : List Nat) :
    play g (p :: ps) = play (scorePoint g p) ps := rfl

theorem play_append (g : Game) (ps qs : List Nat) :
    play g (ps ++ qs) = play (play g ps) qs := by
  simp [play, List.foldl_append]

theorem scorePoint_settings (g : Game) (p : Nat) : (scorePoint g p).settings = g.settings := by
  simp only [scorePoint, endSet, endMatch, showSetWinMessage]
  split_ifs <;> simp [(updateServing_frame _).2.2.1]

theorem play_settings (g : Game) (ps : List Nat) : (play g ps).settings = g.settings := by
  induction ps generalizing g with
  | nil => rfl
  | cons p ps ih => rw [play_cons, ih, scorePoint_settings]

theorem newGame_settings (g : Game) : (newGame g).settings = g.settings := rfl

/-- What one `scorePoint` call does to the set counts and the phase: nothing, or
one more set for one player, with `gameOver` exactly when a count reaches
`setsToWin`. -/
theorem scorePoint_sets (g : Game) (p : Nat) :
    ((scorePoint g p).sets = g.sets ∧ (scorePoint g p).gameState = g.gameState) ∨
    (((scorePoint g p).sets.player1 = g.sets.player1 + 1 ∧
        (scorePoint g p).sets.player2 = g.sets.player2) ∨
      ((scorePoint g p).sets.player1 = g.sets.player1 ∧
        (scorePoint g p).sets.player2 = g.sets.player2 + 1)) ∧
      (((scorePoint g p).sets.player1 ≥ setsToWin g.settings ∨
          (scorePoint g p).sets.player2 ≥ setsToWin g.settings) ∧
          (scorePoint g p).gameState = GameState.gameOver ∨
        ¬ ((scorePoint g p).sets.player1 ≥ setsToWin g.settings ∨
          (scorePoint g p).sets.player2 ≥ setsToWin g.settings) ∧
          (scorePoint g p).gameState = g.gameState) := by
  simp only [scorePoint, endSet, endMatch, showSetWinMessage]
  split_ifs <;> simp_all [(updateServing_frame _).1, (updateServing_frame _).2.2.1,
    (updateServing_frame _).2.2.2.2.1]

/-! ## C1: the set-win condition -/

/-- C1: `checkSetWin` returns true exactly when the larger score is at least
`pointsToWin` and the scores differ by at least two; with `pointsToWin = 11` it is
false at 11-10 and true at 12-10 and at 11-9. -/
theorem checkSetWin_iff :
    (∀ g : Game, checkSetWin g = true ↔
      (max g.score.player1 g.score.player2 ≥ g.settings.pointsToWin ∧
        |(g.score.player1 : Int) - (g.score.player2 : Int)| ≥ 2)) ∧
    checkSetWin { initial with score := { player1 := 11, player2 := 10 } } = false ∧
    checkSetWin { initial with score := { player1 := 12, player2 := 10 } } = true ∧
    checkSetWin { initial with score := { player1 := 11, player2 := 9 } } = true := by
  refine ⟨?_, by decide, by decide, by decide⟩
  intro g
  simp only [checkSetWin, Bool.or_eq_true, Bool.and_eq_true, decide_eq_true_eq, ge_iff_le]
  rcases le_total g.score.player1 g.score.player2 with h | h
  · rw [max_eq_right h, abs_of_nonpos (by omega)]
    omega
  · rw [max_eq_left h, abs_of_nonneg (by omega)]
    omega

/-! ## C2: the match ends exactly when a set count reaches `ceil(matchFormat / 2)` -/

theorem matchInv_scorePoint (g : Game) (p : Nat) (hinv : MatchInv g)
    (hlive : g.gameState ≠ GameState.gameOver) : MatchInv (scorePoint g p) := by
  obtain ⟨hiff, h1, h2⟩ := hinv
  have hne : ¬ (g.sets.player1 = setsToWin g.settings ∨ g.sets.player2 = setsToWin g.settings) :=
    fun h => hlive (hiff.2 h)
  unfold MatchInv
  rw [scorePoint_settings]
  rcases scorePoint_sets g p with ⟨hs, hg⟩ | ⟨hs, hg⟩
  · rw [hs, hg]
    exact ⟨hiff, h1, h2⟩
  · rcases hg with ⟨hge, hover⟩ | ⟨hlt, hsame⟩
    · rw [hover]
      rcases hs with ⟨e1, e2⟩ | ⟨e1, e2⟩ <;> rw [e1, e2] at hge ⊢ <;>
        refine ⟨⟨fun _ => ?_, fun _ => rfl⟩, ?_, ?_⟩ <;> omega
    · rw [hsame]
      rcases hs with ⟨e1, e2⟩ | ⟨e1, e2⟩ <;> rw [e1, e2] at hlt ⊢ <;>
        refine ⟨⟨fun h => absurd h hlive, fun h => ?_⟩, ?_, ?_⟩ <;> omega

theorem matchInv_play (g : Game) (ps : List Nat) (hinv : MatchInv g)
    (hstop : stopsAtGameOver g ps = true) : MatchInv (play g ps) := by
  induction ps generalizing g with
  | nil => exact hinv
  | cons p ps ih =>
    simp only [stopsAtGameOver, Bool.and_eq_true, decide_eq_true_eq] at hstop
    rw [play_cons]
    exact ih _ (matchInv_scorePoint g p hinv hstop.1) hstop.2

theorem matchInv_newGame (g : Game) (hodd : g.settings.matchFormat % 2 = 1) :
    MatchInv (newGame g) := by
  have hpos : 1 ≤ setsToWin g.settings := by unfold setsToWin; omega
  unfold MatchInv
  rw [newGame_settings]
  simp only [newGame, initializeGame, resetServing]
  refine ⟨⟨fun h => by simp at h, fun h => ?_⟩, ?_, ?_⟩
  · rcases h with h | h <;> omega
  · omega
  · omega

set_option maxRecDepth 100000 in
/-- C2: for an odd `matchFormat`, in a match started by `newGame` and played by
`scorePoint` calls that stop at the first `gameOver`, after each call the phase is
`gameOver` exactly when some set count equals `ceil(matchFormat / 2)`, and no set
count exceeds that value; in a best-of-three match, player 1 winning 11-5 and 11-7
ends the match with sets 2-0 and player 1 as the match winner. -/
theorem gameOver_iff_setsToWin (g0 : Game) (ps : List Nat)
    (hodd : g0.settings.matchFormat % 2 = 1)
    (hstop : stopsAtGameOver (newGame g0) ps = true) :
    (((play (newGame g0) ps).gameState = GameState.gameOver ↔
        ((play (newGame g0) ps).sets.player1 = ⌈(g0.settings.matchFormat : ℚ) / 2⌉₊ ∨
          (play (newGame g0) ps).sets.player2 = ⌈(g0.settings.matchFormat : ℚ) / 2⌉₊)) ∧
      (play (newGame g0) ps).sets.player1 ≤ ⌈(g0.settings.matchFormat : ℚ) / 2⌉₊ ∧
      (play (newGame g0) ps).sets.player2 ≤ ⌈(g0.settings.matchFormat : ℚ) / 2⌉₊) ∧
    (stopsAtGameOver (newGame bestOfThree) twoSetsToOne = true ∧
      (play (newGame bestOfThree) twoSetsToOne).gameState = GameState.gameOver ∧
      (play (newGame bestOfThree) twoSetsToOne).sets = { player1 := 2, player2 := 0 } ∧
      matchWinner (play (newGame bestOfThree) twoSetsToOne) = 1 ∧
      (play (newGame bestOfThree) twoSetsToOne).gameStats.setsHistory =
        [{ set := 1, player1Score := 11, player2Score := 5, winner := 1 },
         { set := 2, player1Score := 11, player2Score := 7, winner := 1 }]) := by
  refine ⟨?_, by decide, by decide, by decide, by decide, by decide⟩
  have h := matchInv_play (newGame g0) ps (matchInv_newGame g0 hodd) hstop
  unfold MatchInv at h
  rw [play_settings, newGame_settings, setsToWin_eq_ceil] at h
  exact h

set_option maxRecDepth 100000 in
/-- C2 at a concrete match: best of three, player 1 wins 11-5 and 11-7. -/
theorem gameOver_iff_setsToWin_witness :
    (bestOfThree.settings.matchFormat % 2 = 1 ∧
      stopsAtGameOver (newGame bestOfThree) twoSetsToOne = true) ∧
    ((play (newGame bestOfThree) twoSetsToOne).gameState = GameState.gameOver ↔
        ((play (newGame bestOfThree) twoSetsToOne).sets.player1 =
            ⌈(bestOfThree.settings.matchFormat : ℚ) / 2⌉₊ ∨
          (play (newGame bestOfThree) twoSetsToOne).sets.player2 =
            ⌈(bestOfThree.settings.matchFormat : ℚ) / 2⌉₊)) :=
  ⟨⟨by decide, by decide⟩,
    (gameOver_iff_setsToWin bestOfThree twoSetsToOne (by decide) (by decide)).1.1⟩

/-! ## C10 and C3: serve rotation before deuce -/

theorem otherServer_serverAfterSwitches (n : Nat) :
    otherServer (serverAfterSwitches n) = serverAfterSwitches (n + 1) := by
  unfold otherServer serverAfterSwitches
  rcases Nat.mod_two_eq_zero_or_one n with h | h <;>
    have h1 : (n + 1) % 2 = (n % 2 + 1) % 2 := by omega
  · simp [h, h1]
  · simp [h, h1]

theorem succ_div_mod (n b : Nat) (hb : 1 ≤ b) :
    (b ≤ n % b + 1 → (n + 1) / b = n / b + 1 ∧ (n + 1) % b = 0) ∧
    (¬ b ≤ n % b + 1 → (n + 1) / b = n / b ∧ (n + 1) % b = n % b + 1) := by
  have hlt : n % b < b := Nat.mod_lt _ (by omega)
  have hdm : b * (n / b) + n % b = n := Nat.div_add_mod n b
  constructor
  · intro h
    have he : n + 1 = b * (n / b + 1) := by rw [Nat.mul_add, Nat.mul_one]; omega
    rw [he]
    exact ⟨Nat.mul_div_cancel_left _ (by omega), Nat.mul_mod_right _ _⟩
  · intro h
    have he : n + 1 = (n % b + 1) + b * (n / b) := by omega
    have hlt1 : n % b + 1 < b := by omega
    constructor
    · rw [he, Nat.add_mul_div_left _ _ (by omega), Nat.div_eq_of_lt hlt1]
      omega
    · rw [he, Nat.add_mul_mod_self_left, Nat.mod_eq_of_lt hlt1]

theorem isDeuce_updateServing (g : Game) : isDeuce (updateServing g) = isDeuce g := by
  simp only [isDeuce, (updateServing_frame g).2.2.1, (updateServing_frame g).2.2.2.1]

/-- The method `updateServing` on a state whose scores are not at deuce. -/
theorem updateServing_normal (g : Game) (hd : isDeuce g = false) :
    (g.settings.serveSwitchPoints ≤ g.serving.pointsInService + 1 →
      (updateServing g).serving.currentServer = otherServer g.serving.currentServer ∧
      (updateServing g).serving.pointsInService = 0) ∧
    (¬ g.settings.serveSwitchPoints ≤ g.serving.pointsInService + 1 →
      (updateServing g).serving.currentServer = g.serving.currentServer ∧
      (updateServing g).serving.pointsInService = g.serving.pointsInService + 1) := by
  have h1 : isDeuce { g with serving :=
      { g.serving with pointsInService := g.serving.pointsInService + 1 } } = false := hd
  constructor <;> intro h <;> simp [updateServing, h1, h]

/-- A `scorePoint` call that wins a set makes the history longer. -/
theorem endSet_history_ne (g : Game) : (endSet g).gameStats.setsHistory ≠ g.gameStats.setsHistory := by
  simp only [endSet, endMatch, showSetWinMessage]
  split_ifs <;> simp

/-- One `scorePoint` call after which the set is still running and not in deuce:
the counter goes up by one, and on reaching `serveSwitchPoints` the server changes
and the counter restarts. -/
theorem scorePoint_normal_serve (g : Game) (p : Nat)
    (hd : isDeuce (scorePoint g p) = false)
    (hh : (scorePoint g p).gameStats.setsHistory = g.gameStats.setsHistory) :
    (g.settings.serveSwitchPoints ≤ g.serving.pointsInService + 1 →
      (scorePoint g p).serving.currentServer = otherServer g.serving.currentServer ∧
      (scorePoint g p).serving.pointsInService = 0) ∧
    (¬ g.settings.serveSwitchPoints ≤ g.serving.pointsInService + 1 →
      (scorePoint g p).serving.currentServer = g.serving.currentServer ∧
      (scorePoint g p).serving.pointsInService = g.serving.pointsInService + 1) := by
  unfold scorePoint at hd hh ⊢
  simp only at hd hh ⊢
  split_ifs at hd hh ⊢ with hp hw hw
  · exact absurd (hh.trans (by rw [(updateServing_frame _).2.2.2.2.2])) (endSet_history_ne _)
  · rw [isDeuce_updateServing] at hd
    exact updateServing_normal _ hd
  · exact absurd (hh.trans (by rw [(updateServing_frame _).2.2.2.2.2])) (endSet_history_ne _)
  · rw [isDeuce_updateServing] at hd
    exact updateServing_normal _ hd

theorem quietFirstSet_init (g : Game) (ps : List Nat) (p : Nat)
    (h : QuietFirstSet g (ps ++ [p])) : QuietFirstSet g ps := by
  intro i hi
  have := h i (by simp; omega)
  rwa [List.take_append_of_le_length hi] at this

theorem serve_rotation_aux (g0 : Game) (ps : List Nat)
    (hssp : 1 ≤ g0.settings.serveSwitchPoints) (hquiet : QuietFirstSet (newGame g0) ps) :
    (play (newGame g0) ps).serving.currentServer =
        serverAfterSwitches (ps.length / g0.settings.serveSwitchPoints) ∧
      (play (newGame g0) ps).serving.pointsInService =
        ps.length % g0.settings.serveSwitchPoints := by
  induction ps using List.reverseRecOn with
  | nil => simp [play, newGame, initializeGame, resetServing, serverAfterSwitches]
  | append_singleton ps p ih =>
    obtain ⟨ihs, ihp⟩ := ih (quietFirstSet_init _ ps p hquiet)
    have hlast := hquiet (ps ++ [p]).length le_rfl
    have hprev := hquiet ps.length (by simp)
    rw [List.take_length] at hlast
    rw [List.take_append_of_le_length le_rfl, List.take_length] at hprev
    rw [play_append] at hlast ⊢
    have hstep := scorePoint_normal_serve (play (newGame g0) ps) p hlast.1
      (by rw [hprev.2]; exact hlast.2)
    rw [play_settings, newGame_settings, ihs, ihp, otherServer_serverAfterSwitches] at hstep
    have harith := succ_div_mod ps.length g0.settings.serveSwitchPoints hssp
    simp only [List.length_append, List.length_singleton]
    by_cases hc : g0.settings.serveSwitchPoints ≤ ps.length % g0.settings.serveSwitchPoints + 1
    · rw [(harith.1 hc).1, (harith.1 hc).2]
      exact hstep.1 hc
    · rw [(harith.2 hc).1, (harith.2 hc).2]
      exact hstep.2 hc

theorem quietFirstSet_take (g : Game) (ps : List Nat) (i : Nat)
    (h : QuietFirstSet g ps) : QuietFirstSet g (ps.take i) := by
  intro j hj
  rw [List.length_take] at hj
  have := h j (by omega)
  rwa [List.take_take, Nat.min_eq_left (by omega)]

theorem serverAfterSwitches_succ_ne (n : Nat) :
    serverAfterSwitches (n + 1) ≠ serverAfterSwitches n := by
  unfold serverAfterSwitches
  rcases Nat.mod_two_eq_zero_or_one n with h | h <;>
    have h1 : (n + 1) % 2 = (n % 2 + 1) % 2 := by omega
  · simp [h, h1]
  · simp [h, h1]

/-- C10: in the first set of a fresh match with `serveSwitchPoints >= 1`, as long as
neither deuce nor the end of the set has been reached within the first `k` points,
the server after `k` calls of `scorePoint` is player 1 when `k / serveSwitchPoints`
is even and player 2 when it is odd; the server changes exactly on the points whose
number is a multiple of `serveSwitchPoints`. -/
theorem server_before_deuce (g0 : Game) (ps : List Nat)
    (hssp : 1 ≤ g0.settings.serveSwitchPoints)
    (hquiet : QuietFirstSet (newGame g0) ps) :
    (play (newGame g0) ps).serving.currentServer =
        (if (ps.length / g0.settings.serveSwitchPoints) % 2 = 0 then 1 else 2) ∧
      ∀ i < ps.length,
        ((play (newGame g0) (ps.take (i + 1))).serving.currentServer ≠
            (play (newGame g0) (ps.take i)).serving.currentServer ↔
          g0.settings.serveSwitchPoints ∣ i + 1) := by
  refine ⟨(serve_rotation_aux g0 ps hssp hquiet).1, fun i hi => ?_⟩
  have h0 := (serve_rotation_aux g0 (ps.take i) hssp (quietFirstSet_take _ ps i hquiet)).1
  have h1 := (serve_rotation_aux g0 (ps.take (i + 1)) hssp
    (quietFirstSet_take _ ps (i + 1) hquiet)).1
  rw [List.length_take, Nat.min_eq_left (by omega)] at h0 h1
  rw [h0, h1]
  have harith := succ_div_mod i g0.settings.serveSwitchPoints hssp
  by_cases hc : g0.settings.serveSwitchPoints ≤ i % g0.settings.serveSwitchPoints + 1
  · rw [(harith.1 hc).1]
    exact ⟨fun _ => Nat.dvd_of_mod_eq_zero (harith.1 hc).2,
      fun _ => serverAfterSwitches_succ_ne _⟩
  · rw [(harith.2 hc).1]
    refine ⟨fun h => absurd rfl h, fun h => ?_⟩
    have := Nat.mod_eq_zero_of_dvd h
    rw [(harith.2 hc).2] at this
    omega

/-- C10 at a concrete input: five points with the default settings. -/
theorem server_before_deuce_witness :
    (1 ≤ initial.settings.serveSwitchPoints ∧ QuietFirstSet (newGame initial) [1, 2, 1, 1, 2]) ∧
    (play (newGame initial) [1, 2, 1, 1, 2]).serving.currentServer =
      (if ([1, 2, 1, 1, 2].length / initial.settings.serveSwitchPoints) % 2 = 0 then 1 else 2) :=
  ⟨⟨by decide, by decide⟩,
    (server_before_deuce initial [1, 2, 1, 1, 2] (by decide) (by decide)).1⟩

/-- Any `player` other than `1` is treated as player 2. -/
theorem scorePoint_player (g : Game) (p : Nat) :
    scorePoint g p = scorePoint g (if decide (p = 1) = true then 1 else 2) := by
  by_cases h : p = 1 <;> simp [scorePoint, h]

set_option maxRecDepth 100000 in
theorem first_four_servers (a b c d : Bool) :
    ((newGame initial).serving.currentServer = 1 ∧
      (play (newGame initial) [if a = true then 1 else 2]).serving.currentServer = 1 ∧
      (play (newGame initial)
        [if a = true then 1 else 2, if b = true then 1 else 2]).serving.currentServer = 2 ∧
      (play (newGame initial) [if a = true then 1 else 2, if b = true then 1 else 2,
        if c = true then 1 else 2]).serving.currentServer = 2) ∧
    ((play (newGame initial) [if a = true then 1 else 2]).serving.currentServer = 1 ∧
      (play (newGame initial)
        [if a = true then 1 else 2, if b = true then 1 else 2]).serving.currentServer = 2 ∧
      (play (newGame initial) [if a = true then 1 else 2, if b = true then 1 else 2,
        if c = true then 1 else 2]).serving.currentServer = 2 ∧
      (play (newGame initial) [if a = true then 1 else 2, if b = true then 1 else 2,
        if c = true then 1 else 2, if d = true then 1 else 2]).serving.currentServer = 1) := by
  revert a b c d
  decide

/-- The method `newGame` overwrites every discrete field except the settings. -/
theorem newGame_eq_of_settings (g g2 : Game) (h : g.settings = g2.settings) :
    newGame g = newGame g2 := by
  simp [newGame, initializeGame, resetServing, isDeuce, h]

/-- C3 as stated fails: with the default settings, after the second point of a fresh
match the current server is already player 2, so the values after calls 1 to 4 are
not 1, 1, 2, 2. -/
theorem server_after_calls_counterexample :
    ¬ ((play (newGame initial) [1]).serving.currentServer = 1 ∧
      (play (newGame initial) [1, 1]).serving.currentServer = 1 ∧
      (play (newGame initial) [1, 1, 1]).serving.currentServer = 2 ∧
      (play (newGame initial) [1, 1, 1, 1]).serving.currentServer = 2) := by
  decide

/-- C3 amended: with the default settings and a fresh match, whoever scores, the
player serving the 1st, 2nd, 3rd and 4th point (`currentServer` before each call) is
1, 1, 2, 2 and `currentServer` after the 1st, 2nd, 3rd and 4th call is 1, 2, 2, 1. -/
theorem server_first_four_points (g : Game) (p1 p2 p3 p4 : Nat)
    (hdef : g.settings = defaultSettings) :
    ((newGame g).serving.currentServer = 1 ∧
      (play (newGame g) [p1]).serving.currentServer = 1 ∧
      (play (newGame g) [p1, p2]).serving.currentServer = 2 ∧
      (play (newGame g) [p1, p2, p3]).serving.currentServer = 2) ∧
    ((play (newGame g) [p1]).serving.currentServer = 1 ∧
      (play (newGame g) [p1, p2]).serving.currentServer = 2 ∧
      (play (newGame g) [p1, p2, p3]).serving.currentServer = 2 ∧
      (play (newGame g) [p1, p2, p3, p4]).serving.currentServer = 1) := by
  rw [newGame_eq_of_settings g initial hdef]
  have key := first_four_servers (decide (p1 = 1)) (decide (p2 = 1)) (decide (p3 = 1))
    (decide (p4 = 1))
  simp only [play, List.foldl_cons, List.foldl_nil] at key ⊢
  rw [scorePoint_player _ p1, scorePoint_player _ p2, scorePoint_player _ p3,
    scorePoint_player _ p4]
  exact key

/-- C3 amended, at a concrete input: player 1 scores the first four points. -/
theorem server_first_four_points_witness :
    initial.settings = defaultSettings ∧
    ((play (newGame initial) [1]).serving.currentServer = 1 ∧
      (play (newGame initial) [1, 1]).serving.currentServer = 2 ∧
      (play (newGame initial) [1, 1, 1]).serving.currentServer = 2 ∧
      (play (newGame initial) [1, 1, 1, 1]).serving.currentServer = 1) :=
  ⟨rfl, (server_first_four_points initial 1 1 1 1 rfl).2⟩

/-! ## C4: the paddles and the board edges -/

/-- C4 fails on the code: starting from the reset position `y = 150`, nineteen
`update` ticks with `w` and `arrowup` held move both paddles to `y = -2`, outside
`[0, 300]`; the guard `y > 0` is tested before the step of 8 is subtracted and the
result is not clamped. -/
theorem paddles_leave_board :
    (resetPaddles (constructedBoard : Board ℚ)).paddle1.y = 150 ∧
    (resetPaddles (constructedBoard : Board ℚ)).paddle2.y = 150 ∧
    (paddleTicks (resetPaddles (constructedBoard : Board ℚ))
      (List.replicate 18 upKeys)).paddle1.y = 6 ∧
    (paddleTicks (resetPaddles (constructedBoard : Board ℚ))
      (List.replicate 19 upKeys)).paddle1.y = -2 ∧
    (paddleTicks (resetPaddles (constructedBoard : Board ℚ))
      (List.replicate 19 upKeys)).paddle2.y = -2 := by
  norm_num [paddleTicks, List.replicate, updatePaddles, resetPaddles, constructedBoard, upKeys]

/-! ## C5: ball speed after a paddle collision -/

theorem sqrt_bounce_velocity (a n d : ℝ) (hd : d * d = 1) (hn : 0 ≤ n) :
    Real.sqrt (Real.cos a * n * d * (Real.cos a * n * d) +
      Real.sin a * n * (Real.sin a * n)) = n := by
  have h : Real.cos a * n * d * (Real.cos a * n * d) + Real.sin a * n * (Real.sin a * n) =
      n ^ 2 := by
    have hcs := Real.sin_sq_add_cos_sq a
    calc Real.cos a * n * d * (Real.cos a * n * d) + Real.sin a * n * (Real.sin a * n)
        = n ^ 2 * (Real.cos a ^ 2 * (d * d) + Real.sin a ^ 2) := by ring
      _ = n ^ 2 * (Real.sin a ^ 2 + Real.cos a ^ 2) := by rw [hd]; ring
      _ = n ^ 2 := by rw [hcs]; ring
  rw [h, Real.sqrt_sq hn]

theorem ballSpeed_handlePaddleCollision (b : Board ℝ) (r : PaddleRef)
    (hmax : 0 ≤ b.ball.maxSpeed) :
    ballSpeed (handlePaddleCollision b r).ball =
      min (1.05 * ballSpeed b.ball) b.ball.maxSpeed := by
  have hs : 0 ≤ ballSpeed b.ball := Real.sqrt_nonneg _
  have hn : 0 ≤ min (ballSpeed b.ball * 1.05) b.ball.maxSpeed := le_min (by positivity) hmax
  rw [mul_comm (1.05 : ℝ)]
  cases r
  · simp only [handlePaddleCollision, if_true]
    exact sqrt_bounce_velocity _ _ 1 (by norm_num) hn
  · have hne : ¬ ((-1 : ℝ) = 1) := by norm_num
    simp only [handlePaddleCollision, if_false, hne, reduceCtorEq]
    exact sqrt_bounce_velocity _ _ (-1) (by norm_num) hn

set_option linter.unusedVariables false in
/-- C5: for a collision resolved by `handlePaddleCollision`, with `s` the Euclidean
norm of the ball's velocity before the call, the norm after the call is
`min (1.05 * s) maxSpeed`; hence it is at most `maxSpeed`, and at least `s` whenever
`s <= maxSpeed` (real arithmetic).  `maxSpeed` is non-negative and the paddle height
is non-zero, as for the constants 8 and 100 of the constructor, which are never
reassigned; with height zero the source divides by zero. -/
theorem paddle_collision_speed (b : Board ℝ) (r : PaddleRef)
    (hmax : 0 ≤ b.ball.maxSpeed) (hheight : (b.paddle r).height ≠ 0) :
    ballSpeed (handlePaddleCollision b r).ball =
        min (1.05 * ballSpeed b.ball) b.ball.maxSpeed ∧
      ballSpeed (handlePaddleCollision b r).ball ≤ b.ball.maxSpeed ∧
      (ballSpeed b.ball ≤ b.ball.maxSpeed →
        ballSpeed b.ball ≤ ballSpeed (handlePaddleCollision b r).ball) := by
  have hs : 0 ≤ ballSpeed b.ball := Real.sqrt_nonneg _
  rw [ballSpeed_handlePaddleCollision b r hmax]
  refine ⟨rfl, min_le_right _ _, fun h => le_min ?_ h⟩
  linarith

/-- C5 at a concrete input: the ball arrives at paddle 1 with velocity `(-3, 4)`. -/
theorem paddle_collision_speed_witness :
    (0 ≤ (incomingBoard : Board ℝ).ball.maxSpeed ∧
      ((incomingBoard : Board ℝ).paddle PaddleRef.paddle1).height ≠ 0) ∧
    ballSpeed (handlePaddleCollision (incomingBoard : Board ℝ) PaddleRef.paddle1).ball =
      min (1.05 * ballSpeed (incomingBoard : Board ℝ).ball) (incomingBoard : Board ℝ).ball.maxSpeed :=
  ⟨⟨by norm_num [incomingBoard], by norm_num [incomingBoard, constructedBoard, Board.paddle]⟩,
    (paddle_collision_speed incomingBoard PaddleRef.paddle1 (by norm_num [incomingBoard])
      (by norm_num [incomingBoard, constructedBoard, Board.paddle])).1⟩

/-! ## C6: length of the set history -/

/-- What one `scorePoint` call does to the history, the set index and the phase. -/
theorem scorePoint_history (g : Game) (p : Nat) :
    ((scorePoint g p).gameStats.setsHistory = g.gameStats.setsHistory ∧
      (scorePoint g p).gameStats.currentSet = g.gameStats.currentSet ∧
      (scorePoint g p).gameState = g.gameState) ∨
    ((scorePoint g p).gameStats.setsHistory.length = g.gameStats.setsHistory.length + 1 ∧
      (((scorePoint g p).gameState = GameState.gameOver ∧
          (scorePoint g p).gameStats.currentSet = g.gameStats.currentSet) ∨
        ((scorePoint g p).gameState = g.gameState ∧
          (scorePoint g p).gameStats.currentSet = g.gameStats.currentSet + 1))) := by
  simp only [scorePoint, endSet, endMatch, showSetWinMessage]
  split_ifs <;> simp [(updateServing_frame _).1, (updateServing_frame _).2.2.2.2.2]

theorem historyInv_scorePoint (g : Game) (p : Nat) (hinv : HistoryInv g)
    (hlive : g.gameState ≠ GameState.gameOver) : HistoryInv (scorePoint g p) := by
  have h0 := hinv.1 hlive
  unfold HistoryInv
  rcases scorePoint_history g p with ⟨hh, hc, hg⟩ | ⟨hl, ⟨hg, hc⟩ | ⟨hg, hc⟩⟩
  · rw [hh, hc, hg]
    exact ⟨fun _ => h0, fun h => absurd h hlive⟩
  · rw [hl, hc, hg]
    exact ⟨fun h => absurd rfl h, fun _ => by omega⟩
  · rw [hl, hc, hg]
    exact ⟨fun _ => by push_cast; omega, fun h => absurd h hlive⟩

theorem historyInv_play (g : Game) (ps : List Nat) (hinv : HistoryInv g)
    (hstop : stopsAtGameOver g ps = true) : HistoryInv (play g ps) := by
  induction ps generalizing g with
  | nil => exact hinv
  | cons p ps ih =>
    simp only [stopsAtGameOver, Bool.and_eq_true, decide_eq_true_eq] at hstop
    rw [play_cons]
    exact ih _ (historyInv_scorePoint g p hinv hstop.1) hstop.2

theorem historyInv_newGame (g : Game) : HistoryInv (newGame g) := by
  unfold HistoryInv
  simp [newGame, initializeGame, resetServing]

set_option maxRecDepth 100000 in
/-- C6 as stated fails: with the default settings (best of five) player 1 scores 33
points in a row; the 33rd call wins the third set and the match, and after it the
history has 3 records while `currentSet` is still 3, so the length is not
`currentSet - 1`. -/
theorem history_length_counterexample :
    stopsAtGameOver (newGame initial) (List.replicate 33 1) = true ∧
    (play (newGame initial) (List.replicate 33 1)).gameStats.setsHistory.length =
      (play (newGame initial) (List.replicate 32 1)).gameStats.setsHistory.length + 1 ∧
    (play (newGame initial) (List.replicate 33 1)).gameState = GameState.gameOver ∧
    ((play (newGame initial) (List.replicate 33 1)).gameStats.setsHistory.length : Int) ≠
      ((play (newGame initial) (List.replicate 33 1)).gameStats.currentSet : Int) - 1 := by
  decide

/-- C6 amended: in a match started by `newGame` and played by `scorePoint` calls up
to the first `gameOver`, after every call that leaves the match running (so after
every set won without winning the match) `setsHistory.length = currentSet - 1`, and
after the call that ends the match `setsHistory.length = currentSet`. -/
theorem history_length_after_calls (g0 : Game) (ps : List Nat)
    (hstop : stopsAtGameOver (newGame g0) ps = true) :
    ((play (newGame g0) ps).gameState ≠ GameState.gameOver →
      ((play (newGame g0) ps).gameStats.setsHistory.length : Int) =
        ((play (newGame g0) ps).gameStats.currentSet : Int) - 1) ∧
    ((play (newGame g0) ps).gameState = GameState.gameOver →
      (play (newGame g0) ps).gameStats.setsHistory.length =
        (play (newGame g0) ps).gameStats.currentSet) :=
  historyInv_play _ ps (historyInv_newGame g0) hstop

set_option maxRecDepth 100000 in
/-- C6 amended, at a concrete match: the best-of-three match won 11-5, 11-7. -/
theorem history_length_after_calls_witness :
    stopsAtGameOver (newGame bestOfThree) twoSetsToOne = true ∧
    (play (newGame bestOfThree) twoSetsToOne).gameState = GameState.gameOver ∧
    (play (newGame bestOfThree) twoSetsToOne).gameStats.setsHistory.length =
      (play (newGame bestOfThree) twoSetsToOne).gameStats.currentSet :=
  ⟨by decide, by decide,
    (history_length_after_calls bestOfThree twoSetsToOne (by decide)).2 (by decide)⟩

/-! ## C7: scoring after the match is over -/

set_option maxRecDepth 100000 in
/-- C7 as stated fails: after player 1 has won a best-of-five match with 33 points in
a row, a further `scorePoint(2)` changes the score, `totalPoints`, the set counts and
the set history. -/
theorem scorePoint_after_match_counterexample :
    (play (newGame initial) (List.replicate 33 1)).gameState = GameState.gameOver ∧
    (scorePoint (play (newGame initial) (List.replicate 33 1)) 2).score ≠
      (play (newGame initial) (List.replicate 33 1)).score ∧
    (scorePoint (play (newGame initial) (List.replicate 33 1)) 2).gameStats.totalPoints ≠
      (play (newGame initial) (List.replicate 33 1)).gameStats.totalPoints ∧
    (scorePoint (play (newGame initial) (List.replicate 33 1)) 2).sets ≠
      (play (newGame initial) (List.replicate 33 1)).sets ∧
    (scorePoint (play (newGame initial) (List.replicate 33 1)) 2).gameStats.setsHistory ≠
      (play (newGame initial) (List.replicate 33 1)).gameStats.setsHistory := by
  decide

/-- C7 amended: `scorePoint` has no guard on the phase.  In a `gameOver` state as
`endMatch` leaves it (a set count has reached `setsToWin`, `gameRunning` is false) a
call still adds one to the scoring player's score and to `totalPoints`; the phase
stays `gameOver` and `gameRunning` stays false. -/
theorem scorePoint_after_gameOver (g : Game) (p : Nat)
    (hover : g.gameState = GameState.gameOver)
    (hsets : setsToWin g.settings ≤ g.sets.player1 ∨ setsToWin g.settings ≤ g.sets.player2)
    (hrun : g.gameRunning = false) :
    (scorePoint g p).gameState = GameState.gameOver ∧
    (scorePoint g p).gameRunning = false ∧
    (scorePoint g p).gameStats.totalPoints = g.gameStats.totalPoints + 1 ∧
    (p = 1 → (scorePoint g p).score =
      { player1 := g.score.player1 + 1, player2 := g.score.player2 }) ∧
    (p ≠ 1 → (scorePoint g p).score =
      { player1 := g.score.player1, player2 := g.score.player2 + 1 }) := by
  simp only [scorePoint, endSet, endMatch, showSetWinMessage]
  split_ifs <;> simp_all [(updateServing_frame _).1, (updateServing_frame _).2.1,
    (updateServing_frame _).2.2.1, (updateServing_frame _).2.2.2.1,
    (updateServing_frame _).2.2.2.2.1, (updateServing_frame _).2.2.2.2.2] <;> omega

set_option maxRecDepth 100000 in
/-- C7 amended, at a concrete input: the finished best-of-three match, then a point
for player 2. -/
theorem scorePoint_after_gameOver_witness :
    ((play (newGame bestOfThree) twoSetsToOne).gameState = GameState.gameOver ∧
      (setsToWin (play (newGame bestOfThree) twoSetsToOne).settings ≤
          (play (newGame bestOfThree) twoSetsToOne).sets.player1 ∨
        setsToWin (play (newGame bestOfThree) twoSetsToOne).settings ≤
          (play (newGame bestOfThree) twoSetsToOne).sets.player2) ∧
      (play (newGame bestOfThree) twoSetsToOne).gameRunning = false) ∧
    (scorePoint (play (newGame bestOfThree) twoSetsToOne) 2).gameStats.totalPoints =
      (play (newGame bestOfThree) twoSetsToOne).gameStats.totalPoints + 1 :=
  ⟨⟨by decide, by decide, by decide⟩,
    (scorePoint_after_gameOver (play (newGame bestOfThree) twoSetsToOne) 2 (by decide)
      (by decide) (by decide)).2.2.1⟩

/-! ## C8: who serves first in the next set -/

set_option maxRecDepth 100000 in
/-- C8 fails on the code: with the default settings player 1 serves the first point
of a fresh match and wins the first set 11-0; the match goes on with set 2 at 0-0,
and `currentServer` is player 1 again, not player 2. -/
theorem first_server_repeats :
    (newGame initial).serving.currentServer = 1 ∧
    (play (newGame initial) (List.replicate 11 1)).gameStats.setsHistory =
      [{ set := 1, player1Score := 11, player2Score := 0, winner := 1 }] ∧
    (play (newGame initial) (List.replicate 11 1)).gameState ≠ GameState.gameOver ∧
    (play (newGame initial) (List.replicate 11 1)).gameStats.currentSet = 2 ∧
    (play (newGame initial) (List.replicate 11 1)).score = { player1 := 0, player2 := 0 } ∧
    (play (newGame initial) (List.replicate 11 1)).serving.currentServer = 1 ∧
    (play (newGame initial) (List.replicate 11 1)).serving.pointsInService = 1 := by
  decide

/-! ## C9: deuce -/

theorem updateServing_isDeuce (g : Game) : (updateServing g).serving.isDeuce = isDeuce g := by
  have h1 : isDeuce { g with serving :=
      { g.serving with pointsInService := g.serving.pointsInService + 1 } } = isDeuce g := rfl
  simp only [updateServing, h1]
  split_ifs <;> rfl

theorem scorePoint_eq (g : Game) (p : Nat) :
    scorePoint g p =
      if checkSetWin (updateServing (awarded g p)) = true then
        endSet (updateServing (awarded g p))
      else updateServing (awarded g p) := rfl

theorem awarded_history (g : Game) (p : Nat) :
    (awarded g p).gameStats.setsHistory = g.gameStats.setsHistory := by
  unfold awarded
  split_ifs <;> rfl

theorem isDeuce_awarded (g : Game) (p : Nat) (hd : isDeuce g = true) :
    isDeuce (awarded g p) = true := by
  simp only [isDeuce, Bool.and_eq_true, decide_eq_true_eq] at hd ⊢
  unfold awarded
  split_ifs <;> simp <;> omega

/-- C9: `isDeuce` is true exactly when both scores are at least `pointsToWin - 1`;
exchanging the two scores does not change it; and if it is true before a
`scorePoint` call that does not end the set (the history is unchanged), it is true
after the call, as is the stored flag `serving.isDeuce`. -/
theorem isDeuce_iff_symm_mono (g : Game) (p : Nat) :
    (isDeuce g = true ↔
      ((g.score.player1 : Int) ≥ (g.settings.pointsToWin : Int) - 1 ∧
        (g.score.player2 : Int) ≥ (g.settings.pointsToWin : Int) - 1)) ∧
    isDeuce (swapScores g) = isDeuce g ∧
    (isDeuce g = true →
      (scorePoint g p).gameStats.setsHistory = g.gameStats.setsHistory →
      isDeuce (scorePoint g p) = true ∧ (scorePoint g p).serving.isDeuce = true) := by
  refine ⟨by simp [isDeuce], by simp only [isDeuce, swapScores, Bool.and_comm], ?_⟩
  intro hd hh
  rw [scorePoint_eq] at hh ⊢
  split_ifs at hh ⊢ with hw
  · exact absurd (hh.trans (by rw [(updateServing_frame _).2.2.2.2.2, awarded_history]))
      (endSet_history_ne _)
  · rw [isDeuce_updateServing, updateServing_isDeuce]
    exact ⟨isDeuce_awarded g p hd, isDeuce_awarded g p hd⟩

set_option maxRecDepth 100000 in
/-- C9 at a concrete input: from 10-10 player 1 scores; the set goes on at 11-10 and
is still in deuce. -/
theorem isDeuce_iff_symm_mono_witness :
    (isDeuce (play (newGame initial) tenAll) = true ∧
      (scorePoint (play (newGame initial) tenAll) 1).gameStats.setsHistory =
        (play (newGame initial) tenAll).gameStats.setsHistory) ∧
    (isDeuce (scorePoint (play (newGame initial) tenAll) 1) = true ∧
      (scorePoint (play (newGame initial) tenAll) 1).serving.isDeuce = true) :=
  ⟨⟨by decide, by decide⟩,
    (isDeuce_iff_symm_mono (play (newGame initial) tenAll) 1).2.2 (by decide) (by decide)⟩

/-! ## C11 and C20: serve rotation in deuce -/

theorem otherServer_ne (c : Nat) : otherServer c ≠ c := by
  unfold otherServer
  split_ifs with h <;> omega

/-- The method `updateServing` on the point that makes deuce true. -/
theorem updateServing_entering (g : Game) (hwas : g.serving.isDeuce = false)
    (hnow : isDeuce g = true) (hd : 1 ≤ g.settings.deuceServeSwitchPoints) :
    (updateServing g).serving.isDeuce = true ∧
    (updateServing g).serving.pointsInService = 0 ∧
    (updateServing g).serving.currentServer = g.serving.currentServer := by
  have h1 : ∀ sv : Serving, isDeuce { g with serving := sv } = true := fun _ => hnow
  have h2 : ¬ (g.settings.deuceServeSwitchPoints = 0) := by omega
  simp [updateServing, h1, hwas, h2]

/-- The method `updateServing` on a point played in deuce. -/
theorem updateServing_in_deuce (g : Game) (hwas : g.serving.isDeuce = true)
    (hnow : isDeuce g = true) :
    (updateServing g).serving.isDeuce = true ∧
    (g.settings.deuceServeSwitchPoints ≤ g.serving.pointsInService + 1 →
      (updateServing g).serving.currentServer = otherServer g.serving.currentServer ∧
      (updateServing g).serving.pointsInService = 0) ∧
    (¬ g.settings.deuceServeSwitchPoints ≤ g.serving.pointsInService + 1 →
      (updateServing g).serving.currentServer = g.serving.currentServer ∧
      (updateServing g).serving.pointsInService = g.serving.pointsInService + 1) := by
  have h1 : ∀ sv : Serving, isDeuce { g with serving := sv } = true := fun _ => hnow
  refine ⟨?_, ?_, ?_⟩
  · rw [updateServing_isDeuce]; exact hnow
  · intro h; simp [updateServing, h1, hwas, h]
  · intro h; simp [updateServing, h1, hwas, h]

theorem awarded_serving (g : Game) (p : Nat) : (awarded g p).serving = g.serving := by
  unfold awarded
  split_ifs <;> rfl

theorem awarded_settings (g : Game) (p : Nat) : (awarded g p).settings = g.settings := by
  unfold awarded
  split_ifs <;> rfl

/-- A `scorePoint` call that does not end the set is `updateServing` after the score
has gone up. -/
theorem scorePoint_of_history (g : Game) (p : Nat)
    (hh : (scorePoint g p).gameStats.setsHistory = g.gameStats.setsHistory) :
    scorePoint g p = updateServing (awarded g p) := by
  rw [scorePoint_eq] at hh ⊢
  split_ifs at hh ⊢ with hw
  · exact absurd (hh.trans (by rw [(updateServing_frame _).2.2.2.2.2, awarded_history]))
      (endSet_history_ne _)
  · rfl

theorem deuceRun_init (g : Game) (ps : List Nat) (p : Nat)
    (h : DeuceRun g (ps ++ [p])) : DeuceRun g ps := by
  intro i hi
  have := h i (by simp; omega)
  rwa [List.take_append_of_le_length hi] at this

theorem deuceRun_take (g : Game) (ps : List Nat) (i : Nat)
    (h : DeuceRun g ps) : DeuceRun g (ps.take i) := by
  intro j hj
  rw [List.length_take] at hj
  have := h j (by omega)
  rwa [List.take_take, Nat.min_eq_left (by omega)]

theorem deuce_rotation_aux (g : Game) (ps : List Nat)
    (hd : 1 ≤ g.settings.deuceServeSwitchPoints)
    (hflag : g.serving.isDeuce = true) (hpis : g.serving.pointsInService = 0)
    (hrun : DeuceRun g ps) :
    (play g ps).serving.isDeuce = true ∧
      (play g ps).serving.pointsInService = ps.length % g.settings.deuceServeSwitchPoints := by
  induction ps using List.reverseRecOn with
  | nil => simp [play, hflag, hpis]
  | append_singleton ps p ih =>
    obtain ⟨ihf, ihp⟩ := ih (deuceRun_init _ ps p hrun)
    have hlast := hrun (ps ++ [p]).length le_rfl
    have hprev := hrun ps.length (by simp)
    rw [List.take_length] at hlast
    rw [List.take_append_of_le_length le_rfl, List.take_length] at hprev
    rw [play_append] at hlast ⊢
    have heq := scorePoint_of_history (play g ps) p (by
      show (play (play g ps) [p]).gameStats.setsHistory = _
      rw [hlast.2, hprev.2])
    have hl1 : isDeuce (scorePoint (play g ps) p) = true := hlast.1
    rw [heq, isDeuce_updateServing] at hl1
    have hstep := updateServing_in_deuce (awarded (play g ps) p)
      (by rw [awarded_serving]; exact ihf) hl1
    rw [awarded_serving, awarded_settings, play_settings, ihp] at hstep
    have harith := succ_div_mod ps.length g.settings.deuceServeSwitchPoints hd
    have hplay : play (play g ps) [p] = updateServing (awarded (play g ps) p) := heq
    rw [hplay]
    refine ⟨hstep.1, ?_⟩
    simp only [List.length_append, List.length_singleton]
    by_cases hc : g.settings.deuceServeSwitchPoints ≤
        ps.length % g.settings.deuceServeSwitchPoints + 1
    · rw [(harith.1 hc).2]; exact (hstep.2.1 hc).2
    · rw [(harith.2 hc).2]; exact (hstep.2.2 hc).2

/-- Within a deuce run the `(i+1)`-th point changes the server exactly when
`deuceServeSwitchPoints` divides `i + 1`. -/
theorem deuce_change_iff (g : Game) (ps : List Nat)
    (hd : 1 ≤ g.settings.deuceServeSwitchPoints)
    (hflag : g.serving.isDeuce = true) (hpis : g.serving.pointsInService = 0)
    (hrun : DeuceRun g ps) (i : Nat) (hi : i < ps.length) :
    ((play g (ps.take (i + 1))).serving.currentServer ≠
        (play g (ps.take i)).serving.currentServer ↔
      g.settings.deuceServeSwitchPoints ∣ i + 1) := by
  obtain ⟨hf, hp⟩ := deuce_rotation_aux g (ps.take i) hd hflag hpis (deuceRun_take g ps i hrun)
  rw [List.length_take, Nat.min_eq_left (by omega)] at hp
  have hsplit : ps.take (i + 1) = ps.take i ++ [ps.get ⟨i, hi⟩] := by
    rw [List.take_succ]
    simp [List.getElem?_eq_getElem hi]
  have hnext := hrun (i + 1) (by omega)
  have hcur := hrun i (by omega)
  rw [hsplit, play_append] at hnext ⊢
  have heq := scorePoint_of_history (play g (ps.take i)) (ps.get ⟨i, hi⟩) (by
    show (play (play g (ps.take i)) [ps.get ⟨i, hi⟩]).gameStats.setsHistory = _
    rw [hnext.2, hcur.2])
  have hl1 : isDeuce (scorePoint (play g (ps.take i)) (ps.get ⟨i, hi⟩)) = true := hnext.1
  rw [heq, isDeuce_updateServing] at hl1
  have hstep := updateServing_in_deuce (awarded (play g (ps.take i)) (ps.get ⟨i, hi⟩))
    (by rw [awarded_serving]; exact hf) hl1
  rw [awarded_serving, awarded_settings, play_settings, hp] at hstep
  have harith := succ_div_mod i g.settings.deuceServeSwitchPoints hd
  have hplay : play (play g (ps.take i)) [ps.get ⟨i, hi⟩] =
      updateServing (awarded (play g (ps.take i)) (ps.get ⟨i, hi⟩)) := heq
  rw [hplay]
  by_cases hc : g.settings.deuceServeSwitchPoints ≤ i % g.settings.deuceServeSwitchPoints + 1
  · rw [(hstep.2.1 hc).1]
    exact ⟨fun _ => Nat.dvd_of_mod_eq_zero (harith.1 hc).2, fun _ => otherServer_ne _⟩
  · rw [(hstep.2.2 hc).1]
    refine ⟨fun h => absurd rfl h, fun h => ?_⟩
    have := Nat.mod_eq_zero_of_dvd h
    rw [(harith.2 hc).2] at this
    omega

/-- C11: once a point has made deuce true, for the following points played in
deuce that do not end the set (`isDeuce` true before and after each of them) the
server changes exactly on every `deuceServeSwitchPoints`-th point counted from the
point that entered deuce; with `deuceServeSwitchPoints = 1` every such point
switches the server. -/
theorem server_in_deuce (g0 : Game) (p0 : Nat) (ps : List Nat)
    (hd : 1 ≤ g0.settings.deuceServeSwitchPoints)
    (hbefore : g0.serving.isDeuce = false)
    (hentry : (scorePoint g0 p0).gameStats.setsHistory = g0.gameStats.setsHistory)
    (hrun : DeuceRun (scorePoint g0 p0) ps) :
    (∀ i < ps.length,
      ((play (scorePoint g0 p0) (ps.take (i + 1))).serving.currentServer ≠
          (play (scorePoint g0 p0) (ps.take i)).serving.currentServer ↔
        g0.settings.deuceServeSwitchPoints ∣ i + 1)) ∧
    (g0.settings.deuceServeSwitchPoints = 1 →
      ∀ i < ps.length,
        (play (scorePoint g0 p0) (ps.take (i + 1))).serving.currentServer ≠
          (play (scorePoint g0 p0) (ps.take i)).serving.currentServer) := by
  have heq := scorePoint_of_history g0 p0 hentry
  have h0 : isDeuce (scorePoint g0 p0) = true := (hrun 0 (Nat.zero_le _)).1
  rw [heq, isDeuce_updateServing] at h0
  have hent := updateServing_entering (awarded g0 p0)
    (by rw [awarded_serving]; exact hbefore) h0 (by rw [awarded_settings]; exact hd)
  rw [← heq] at hent
  have hset : (scorePoint g0 p0).settings = g0.settings := scorePoint_settings g0 p0
  have key : ∀ i < ps.length,
      ((play (scorePoint g0 p0) (ps.take (i + 1))).serving.currentServer ≠
          (play (scorePoint g0 p0) (ps.take i)).serving.currentServer ↔
        g0.settings.deuceServeSwitchPoints ∣ i + 1) := by
    intro i hi
    have := deuce_change_iff (scorePoint g0 p0) ps (by rw [hset]; exact hd) hent.1 hent.2.1
      hrun i hi
    rwa [hset] at this
  refine ⟨key, fun h1 i hi => (key i hi).2 ?_⟩
  rw [h1]
  exact one_dvd _

set_option maxRecDepth 100000 in
/-- C11 at a concrete input: from 10-9 the point for player 2 makes it 10-10; then
11-10, 11-11, 12-11 are played in deuce with the default settings. -/
theorem server_in_deuce_witness :
    (1 ≤ (play (newGame initial) tenNine).settings.deuceServeSwitchPoints ∧
      (play (newGame initial) tenNine).serving.isDeuce = false ∧
      (scorePoint (play (newGame initial) tenNine) 2).gameStats.setsHistory =
        (play (newGame initial) tenNine).gameStats.setsHistory ∧
      DeuceRun (scorePoint (play (newGame initial) tenNine) 2) [1, 2, 1]) ∧
    ∀ i < [1, 2, 1].length,
      ((play (scorePoint (play (newGame initial) tenNine) 2)
            ([1, 2, 1].take (i + 1))).serving.currentServer ≠
          (play (scorePoint (play (newGame initial) tenNine) 2)
            ([1, 2, 1].take i)).serving.currentServer ↔
        (play (newGame initial) tenNine).settings.deuceServeSwitchPoints ∣ i + 1) :=
  ⟨⟨by decide, by decide, by decide, by decide⟩,
    (server_in_deuce (play (newGame initial) tenNine) 2 [1, 2, 1] (by decide) (by decide)
      (by decide) (by decide)).1⟩

/-- C20: on the point that makes deuce true (the flag `serving.isDeuce` is false
when `updateServing` is called and `isDeuce()` is true for the new score), for
every `deuceServeSwitchPoints >= 1` and whatever `pointsInService` was before,
`updateServing` leaves `pointsInService = 0` and does not change the current
server. -/
theorem entering_deuce_resets_counter (g : Game)
    (hwas : g.serving.isDeuce = false) (hnow : isDeuce g = true)
    (hd : 1 ≤ g.settings.deuceServeSwitchPoints) :
    (updateServing g).serving.pointsInService = 0 ∧
    (updateServing g).serving.currentServer = g.serving.currentServer ∧
    (updateServing g).serving.isDeuce = true := by
  have h1 : ∀ sv : Serving, isDeuce { g with serving := sv } = true := fun _ => hnow
  have h2 : ¬ (g.settings.deuceServeSwitchPoints = 0) := by omega
  simp [updateServing, h1, hwas, h2]

set_option maxRecDepth 100000 in
/-- C20 at a concrete input: the score goes from 10-9 to 10-10 with the default
settings. -/
theorem entering_deuce_resets_counter_witness :
    ((awarded (play (newGame initial) tenNine) 2).serving.isDeuce = false ∧
      isDeuce (awarded (play (newGame initial) tenNine) 2) = true ∧
      1 ≤ (awarded (play (newGame initial) tenNine) 2).settings.deuceServeSwitchPoints) ∧
    (updateServing (awarded (play (newGame initial) tenNine) 2)).serving.pointsInService = 0 :=
  ⟨⟨by decide, by decide, by decide⟩,
    (entering_deuce_resets_counter (awarded (play (newGame initial) tenNine) 2) (by decide)
      (by decide) (by decide)).1⟩

/-! ## C12 and C13: reset and new game -/

/-- C12: `resetGame` clears only the current set: afterwards both scores are 0 and
`pointsInService` is 0, while both set counts, the set history, the current-set
index, `totalPoints` and the current server are what they were before the call. -/
theorem resetGame_clears_current_set (g : Game) :
    (resetGame g).score = { player1 := 0, player2 := 0 } ∧
    (resetGame g).serving.pointsInService = 0 ∧
    (resetGame g).sets = g.sets ∧
    (resetGame g).gameStats.setsHistory = g.gameStats.setsHistory ∧
    (resetGame g).gameStats.currentSet = g.gameStats.currentSet ∧
    (resetGame g).gameStats.totalPoints = g.gameStats.totalPoints ∧
    (resetGame g).serving.currentServer = g.serving.currentServer := by
  simp [resetGame, initializeGame, resetServing]

/-- C13: from every state, `newGame` yields scores 0-0, set counts 0-0,
`currentSet = 1`, `totalPoints = 0`, an empty set history, `currentServer = 1` and
`pointsInService = 0`. -/
theorem newGame_fresh (g : Game) :
    (newGame g).score = { player1 := 0, player2 := 0 } ∧
    (newGame g).sets = { player1 := 0, player2 := 0 } ∧
    (newGame g).gameStats.currentSet = 1 ∧
    (newGame g).gameStats.totalPoints = 0 ∧
    (newGame g).gameStats.setsHistory = [] ∧
    (newGame g).serving.currentServer = 1 ∧
    (newGame g).serving.pointsInService = 0 := by
  simp [newGame, initializeGame, resetServing]

/-! ## C14: the stored deuce flag -/

set_option maxRecDepth 100000 in
/-- C14 fails on the code: with the default settings the first set goes to 10-10 and
player 1 wins it 12-10; `endSet` resets the score to 0-0 but leaves the flag
`serving.isDeuce` at `true`, while `isDeuce()` is `false` for 0-0. -/
theorem stale_deuce_flag :
    (play (newGame initial) (tenAll ++ [1, 1])).gameStats.setsHistory =
      [{ set := 1, player1Score := 12, player2Score := 10, winner := 1 }] ∧
    (play (newGame initial) (tenAll ++ [1, 1])).gameState ≠ GameState.gameOver ∧
    (play (newGame initial) (tenAll ++ [1, 1])).score = { player1 := 0, player2 := 0 } ∧
    (play (newGame initial) (tenAll ++ [1, 1])).serving.isDeuce = true ∧
    isDeuce (play (newGame initial) (tenAll ++ [1, 1])) = false := by
  decide

/-! ## C15 and C16: phases and the tick -/

/-- What one `scorePoint` call does to the phase and to `gameRunning`. -/
theorem scorePoint_phase (g : Game) (p : Nat) :
    ((scorePoint g p).gameState = g.gameState ∧
      ((scorePoint g p).gameRunning = g.gameRunning ∨ (scorePoint g p).gameRunning = false)) ∨
    ((scorePoint g p).gameState = GameState.gameOver ∧ (scorePoint g p).gameRunning = false) := by
  simp only [scorePoint, endSet, endMatch, showSetWinMessage]
  split_ifs <;> simp [(updateServing_frame _).1, (updateServing_frame _).2.1]

theorem scorePoint_totalPoints (g : Game) (p : Nat) :
    (scorePoint g p).gameStats.totalPoints = g.gameStats.totalPoints + 1 := by
  simp only [scorePoint, endSet, endMatch, showSetWinMessage]
  split_ifs <;> simp [(updateServing_frame _).2.2.2.2.2]

theorem session_scorePoint_game (s : Session) (p : Nat) (r : ℝ) :
    (Session.scorePoint s p r).game = scorePoint s.game p := by
  unfold Session.scorePoint
  split_ifs <;> rfl

theorem session_updateBall_game (s : Session) (r : ℝ) :
    (Session.updateBall s r).game =
      if (moveBall s.board).ball.x < -(moveBall s.board).ball.radius then scorePoint s.game 2
      else if (moveBall s.board).ball.x >
          (moveBall s.board).canvas.width + (moveBall s.board).ball.radius then
        scorePoint s.game 1
      else s.game := by
  unfold Session.updateBall
  simp only
  split_ifs <;> simp [session_scorePoint_game]

theorem session_update_game (s : Session) (r1 r2 : ℝ) :
    (Session.update s r1 r2).game =
      if s.game.gameRunning = false then s.game
      else (Session.updateBall { s with board := updatePaddles s.board } r1).game := by
  unfold Session.update
  split_ifs <;> rfl

/-- The phase after `update` is the phase before, or `gameOver`; `gameRunning` stays or becomes false. -/
theorem session_update_phase (s : Session) (r1 r2 : ℝ) :
    ((Session.update s r1 r2).game.gameState = s.game.gameState ∧
      ((Session.update s r1 r2).game.gameRunning = s.game.gameRunning ∨
        (Session.update s r1 r2).game.gameRunning = false)) ∨
    ((Session.update s r1 r2).game.gameState = GameState.gameOver ∧
      (Session.update s r1 r2).game.gameRunning = false) := by
  rw [session_update_game, session_updateBall_game]
  split_ifs
  · exact Or.inl ⟨rfl, Or.inl rfl⟩
  · exact scorePoint_phase s.game 2
  · exact scorePoint_phase s.game 1
  · exact Or.inl ⟨rfl, Or.inl rfl⟩

theorem runningInv_reachable (s : Session) (h : Reachable s) : RunningInv s.game := by
  induction h with
  | constructed b d => intro h; simp [initial] at h
  | startGame s r _ _ => intro _; rfl
  | togglePause s _ ih =>
    intro h
    change (togglePause s.game).gameRunning = true at h
    change (togglePause s.game).gameState = GameState.playing
    unfold togglePause at h ⊢
    split_ifs at h ⊢ with h1 h2
    · rfl
    · exact ih h
  | newGame s r _ _ => intro h; simp [Session.newGame, Session.resetBall, newGame] at h
  | resetGame s r _ _ => intro h; simp [Session.resetGame, Session.resetBall, resetGame] at h
  | update s r1 r2 _ ih =>
    intro h
    rcases session_update_phase s r1 r2 with ⟨hs, hr | hr⟩ | ⟨_, hr⟩
    · rw [hs]; exact ih (hr ▸ h)
    · rw [hr] at h; simp at h
    · rw [hr] at h; simp at h
  | scorePoint s p r _ ih =>
    intro h
    rw [session_scorePoint_game] at h ⊢
    rcases scorePoint_phase s.game p with ⟨hs, hr | hr⟩ | ⟨_, hr⟩
    · rw [hs]; exact ih (hr ▸ h)
    · rw [hr] at h; simp at h
    · rw [hr] at h; simp at h
  | setKeys s k _ ih => exact ih

set_option maxRecDepth 100000 in
/-- C15 as stated fails: after a finished match (`gameState = 'gameOver'`) the methods
`startGame` and `resetGame` leave the phase `gameOver`. -/
theorem gameOver_left_counterexample :
    finishedSession.game.gameState = GameState.gameOver ∧
    (Session.startGame finishedSession 0).game.gameState ≠ GameState.gameOver ∧
    (Session.resetGame finishedSession 0).game.gameState ≠ GameState.gameOver := by
  refine ⟨?_, ?_, ?_⟩
  · show (play (newGame initial) (List.replicate 33 1)).gameState = GameState.gameOver
    decide
  · show GameState.playing ≠ GameState.gameOver
    decide
  · show GameState.menu ≠ GameState.gameOver
    decide

/-- C15 amended: from every state with `gameState = 'gameOver'`, `togglePause` and
`update` leave `gameState = 'gameOver'`; `startGame` sets it to `'playing'`, and
`resetGame` and `newGame` set it to `'menu'`. -/
theorem gameOver_transitions (s : Session) (r r2 : ℝ)
    (hover : s.game.gameState = GameState.gameOver) :
    (Session.togglePause s).game.gameState = GameState.gameOver ∧
    (Session.update s r r2).game.gameState = GameState.gameOver ∧
    (Session.startGame s r).game.gameState = GameState.playing ∧
    (Session.resetGame s r).game.gameState = GameState.menu ∧
    (Session.newGame s r).game.gameState = GameState.menu := by
  refine ⟨?_, ?_, rfl, rfl, rfl⟩
  · simp [Session.togglePause, togglePause, hover]
  · rcases session_update_phase s r r2 with ⟨hs, _⟩ | ⟨hs, _⟩
    · rw [hs, hover]
    · exact hs


set_option maxRecDepth 100000 in
/-- C15 amended, at a concrete input: the finished best-of-five match. -/
theorem gameOver_transitions_witness :
    finishedSession.game.gameState = GameState.gameOver ∧
    (Session.togglePause finishedSession).game.gameState = GameState.gameOver ∧
    (Session.update finishedSession 0 0).game.gameState = GameState.gameOver :=
  ⟨by show (play (newGame initial) (List.replicate 33 1)).gameState = GameState.gameOver; decide,
    (gameOver_transitions finishedSession 0 0
      (by show (play (newGame initial) (List.replicate 33 1)).gameState = GameState.gameOver
          decide)).1,
    (gameOver_transitions finishedSession 0 0
      (by show (play (newGame initial) (List.replicate 33 1)).gameState = GameState.gameOver
          decide)).2.1⟩

/-- C16: in every state reachable from construction by `startGame`, `togglePause`,
`newGame`, `resetGame`, `update` and `scorePoint` (and key events), if `gameState` is
not `'playing'` then `gameRunning` is false and `update()` changes nothing: ball,
paddles, scores, set counts, serve state and history are unchanged. -/
theorem update_noop_outside_playing (s : Session) (r1 r2 : ℝ) (hreach : Reachable s)
    (hphase : s.game.gameState ≠ GameState.playing) :
    Session.update s r1 r2 = s ∧ s.game.gameRunning = false := by
  have hrun : s.game.gameRunning = false := by
    cases h : s.game.gameRunning
    · rfl
    · exact absurd (runningInv_reachable s hreach h) hphase
  exact ⟨by simp [Session.update, hrun], hrun⟩

/-- C16 at a concrete input: the constructed object, in the phase `menu`. -/
theorem update_noop_outside_playing_witness :
    (Reachable constructedSession ∧ constructedSession.game.gameState ≠ GameState.playing) ∧
    Session.update constructedSession 0 0 = constructedSession :=
  ⟨⟨Reachable.constructed _ _, by simp [constructedSession, initial]⟩,
    (update_noop_outside_playing constructedSession 0 0 (Reachable.constructed _ _)
      (by simp [constructedSession, initial])).1⟩

/-! ## C17 and C19: the ball step -/

theorem scorePoint_ne_self (g : Game) (p : Nat) : scorePoint g p ≠ g := by
  intro h
  have := scorePoint_totalPoints g p
  rw [h] at this
  omega

/-- The record `endSet` pushes carries the score at the end of the set. -/
theorem endSet_history (g : Game) :
    ∃ w, (endSet g).gameStats.setsHistory = g.gameStats.setsHistory ++
      [{ set := g.gameStats.currentSet, player1Score := g.score.player1,
         player2Score := g.score.player2, winner := w }] := by
  simp only [endSet, endMatch, showSetWinMessage]
  split_ifs <;> exact ⟨_, rfl⟩

theorem awarded_score_one (g : Game) :
    (awarded g 1).score = { player1 := g.score.player1 + 1, player2 := g.score.player2 } := rfl

theorem awarded_score_two (g : Game) :
    (awarded g 2).score = { player1 := g.score.player1, player2 := g.score.player2 + 1 } := rfl

/-- A point for player 1 and a point for player 2 never lead to the same state. -/
theorem scorePoint_one_ne_two (g : Game) : scorePoint g 1 ≠ scorePoint g 2 := by
  intro h
  rw [scorePoint_eq, scorePoint_eq] at h
  have hA := (updateServing_frame (awarded g 1))
  have hB := (updateServing_frame (awarded g 2))
  split_ifs at h with h1 h2 h2
  · obtain ⟨w1, e1⟩ := endSet_history (updateServing (awarded g 1))
    obtain ⟨w2, e2⟩ := endSet_history (updateServing (awarded g 2))
    have := congrArg (fun x => x.gameStats.setsHistory) h
    simp only [e1, e2, hA.2.2.2.2.2, hB.2.2.2.2.2, hA.2.2.2.1, hB.2.2.2.1, awarded_history,
      awarded_score_one, awarded_score_two] at this
    simp at this
  · obtain ⟨w1, e1⟩ := endSet_history (updateServing (awarded g 1))
    have := congrArg (fun x => x.gameStats.setsHistory.length) h
    simp only [e1, hA.2.2.2.2.2, hB.2.2.2.2.2, awarded_history] at this
    simp at this
  · obtain ⟨w2, e2⟩ := endSet_history (updateServing (awarded g 2))
    have := congrArg (fun x => x.gameStats.setsHistory.length) h
    simp only [e2, hA.2.2.2.2.2, hB.2.2.2.2.2, awarded_history] at this
    simp at this
  · have := congrArg (fun x => x.score.player1) h
    simp only [hA.2.2.2.1, hB.2.2.2.1, awarded_score_one, awarded_score_two] at this
    omega

section Field
variable {K : Type} [LinearOrderedField K]

theorem moveBall_frame (b : Board K) :
    (moveBall b).ball.x = b.ball.x + b.ball.speedX ∧
    (moveBall b).ball.radius = b.ball.radius ∧
    (moveBall b).ball.speedX = b.ball.speedX ∧
    (moveBall b).canvas = b.canvas := by
  unfold moveBall
  simp only
  split_ifs <;> exact ⟨rfl, rfl, rfl, rfl⟩

/-- The wall part of `updateBall`. -/
theorem moveBall_wall (b : Board K) (hH : 2 * b.ball.radius ≤ b.canvas.height) :
    (b.ball.radius ≤ (moveBall b).ball.y ∧
      (moveBall b).ball.y ≤ b.canvas.height - b.ball.radius) ∧
    ((b.ball.y + b.ball.speedY ≤ b.ball.radius ∨
        b.ball.y + b.ball.speedY ≥ b.canvas.height - b.ball.radius) →
      (moveBall b).ball.speedY = -b.ball.speedY ∧
      (moveBall b).ball.y =
        max b.ball.radius (min (b.ball.y + b.ball.speedY) (b.canvas.height - b.ball.radius))) ∧
    (¬ (b.ball.y + b.ball.speedY ≤ b.ball.radius ∨
        b.ball.y + b.ball.speedY ≥ b.canvas.height - b.ball.radius) →
      (moveBall b).ball.y = b.ball.y + b.ball.speedY ∧
      (moveBall b).ball.speedY = b.ball.speedY) := by
  have hr : b.ball.radius ≤ b.canvas.height - b.ball.radius := by linarith
  unfold moveBall
  simp only
  split_ifs with h
  · refine ⟨⟨le_max_left _ _, max_le hr (min_le_right _ _)⟩, fun _ => ⟨rfl, rfl⟩,
      fun hn => absurd h hn⟩
  · have h' := h
    rw [not_or, not_le, not_le] at h'
    exact ⟨⟨le_of_lt h'.1, le_of_lt h'.2⟩, fun hy => absurd hy h, fun _ => ⟨rfl, rfl⟩⟩

end Field

/-- C17: in `updateBall`, with `x'` the ball's x after adding `speedX`, player 2 is
awarded a point exactly when `x' < -radius`, player 1 exactly when
`x' > boardWidth + radius`, and no point is awarded otherwise; at most one point is
awarded per step.  The hypothesis `-radius <= boardWidth + radius` holds for the
constants 8 and 800; it makes the two tests exclude each other (otherwise the
`else if` would give the point to player 2 only). -/
theorem updateBall_scoring (s : Session) (r : ℝ)
    (hwide : -s.board.ball.radius ≤ s.board.canvas.width + s.board.ball.radius) :
    ((Session.updateBall s r).game = scorePoint s.game 2 ↔
      s.board.ball.x + s.board.ball.speedX < -s.board.ball.radius) ∧
    ((Session.updateBall s r).game = scorePoint s.game 1 ↔
      s.board.ball.x + s.board.ball.speedX > s.board.canvas.width + s.board.ball.radius) ∧
    ((Session.updateBall s r).game = s.game ↔
      (¬ s.board.ball.x + s.board.ball.speedX < -s.board.ball.radius ∧
        ¬ s.board.ball.x + s.board.ball.speedX >
          s.board.canvas.width + s.board.ball.radius)) ∧
    (Session.updateBall s r).game.gameStats.totalPoints ≤ s.game.gameStats.totalPoints + 1 := by
  obtain ⟨hx, hr, _, hc⟩ := moveBall_frame s.board
  rw [session_updateBall_game, hx, hr, hc]
  split_ifs with h1 h2
  · refine ⟨⟨fun _ => h1, fun _ => rfl⟩, ⟨fun h => absurd h.symm (scorePoint_one_ne_two _),
      fun h => ?_⟩, ⟨fun h => absurd h (scorePoint_ne_self _ _), fun h => absurd h1 h.1⟩, ?_⟩
    · exact absurd (lt_of_le_of_lt hwide h) (not_lt.2 (le_of_lt h1))
    · rw [scorePoint_totalPoints]
  · refine ⟨⟨fun h => absurd h (scorePoint_one_ne_two _), fun h => absurd h h1⟩,
      ⟨fun _ => h2, fun _ => rfl⟩,
      ⟨fun h => absurd h (scorePoint_ne_self _ _), fun h => absurd h2 h.2⟩, ?_⟩
    rw [scorePoint_totalPoints]
  · refine ⟨⟨fun h => absurd h.symm (scorePoint_ne_self _ _), fun h => absurd h h1⟩,
      ⟨fun h => absurd h.symm (scorePoint_ne_self _ _), fun h => absurd h h2⟩,
      ⟨fun _ => ⟨h1, h2⟩, fun _ => rfl⟩, ?_⟩
    omega

/-- C17 at a concrete input: the ball at `x = -5` moving left by 4. -/
theorem updateBall_scoring_witness :
    -ballLeavingLeft.board.ball.radius ≤
        ballLeavingLeft.board.canvas.width + ballLeavingLeft.board.ball.radius ∧
    (Session.updateBall ballLeavingLeft 0).game = scorePoint ballLeavingLeft.game 2 :=
  ⟨by norm_num [ballLeavingLeft, constructedBoard],
    (updateBall_scoring ballLeavingLeft 0 (by norm_num [ballLeavingLeft, constructedBoard])).1.2
      (by norm_num [ballLeavingLeft])⟩

/-- C19: for every `updateBall` step in which no point is scored, with
`boardHeight >= 2 * radius`, the ball's y afterwards lies in
`[radius, boardHeight - radius]`; if the moved y is `<= radius` or
`>= boardHeight - radius` then `speedY` is negated and y is clamped into that range,
otherwise y is the moved value and `speedY` is unchanged; `speedX` is unchanged in
both cases. -/
theorem updateBall_walls (s : Session) (r : ℝ)
    (hH : 2 * s.board.ball.radius ≤ s.board.canvas.height)
    (hleft : ¬ s.board.ball.x + s.board.ball.speedX < -s.board.ball.radius)
    (hright : ¬ s.board.ball.x + s.board.ball.speedX >
      s.board.canvas.width + s.board.ball.radius) :
    (s.board.ball.radius ≤ (Session.updateBall s r).board.ball.y ∧
      (Session.updateBall s r).board.ball.y ≤ s.board.canvas.height - s.board.ball.radius) ∧
    ((s.board.ball.y + s.board.ball.speedY ≤ s.board.ball.radius ∨
        s.board.ball.y + s.board.ball.speedY ≥ s.board.canvas.height - s.board.ball.radius) →
      (Session.updateBall s r).board.ball.speedY = -s.board.ball.speedY ∧
      (Session.updateBall s r).board.ball.y =
        max s.board.ball.radius
          (min (s.board.ball.y + s.board.ball.speedY)
            (s.board.canvas.height - s.board.ball.radius))) ∧
    (¬ (s.board.ball.y + s.board.ball.speedY ≤ s.board.ball.radius ∨
        s.board.ball.y + s.board.ball.speedY ≥ s.board.canvas.height - s.board.ball.radius) →
      (Session.updateBall s r).board.ball.y = s.board.ball.y + s.board.ball.speedY ∧
      (Session.updateBall s r).board.ball.speedY = s.board.ball.speedY) ∧
    (Session.updateBall s r).board.ball.speedX = s.board.ball.speedX := by
  obtain ⟨hx, hr, hsx, hc⟩ := moveBall_frame s.board
  have hb : (Session.updateBall s r).board = moveBall s.board := by
    unfold Session.updateBall
    simp only [hx, hr, hc, hleft, hright, if_false]
  rw [hb]
  obtain ⟨h1, h2, h3⟩ := moveBall_wall s.board hH
  exact ⟨h1, h2, h3, hsx⟩

/-- C19 at a concrete input: the ball at `y = 10` moving up by 4. -/
theorem updateBall_walls_witness :
    (2 * ballNearTop.board.ball.radius ≤ ballNearTop.board.canvas.height ∧
      ¬ ballNearTop.board.ball.x + ballNearTop.board.ball.speedX < -ballNearTop.board.ball.radius ∧
      ¬ ballNearTop.board.ball.x + ballNearTop.board.ball.speedX >
        ballNearTop.board.canvas.width + ballNearTop.board.ball.radius) ∧
    (Session.updateBall ballNearTop 0).board.ball.speedX = ballNearTop.board.ball.speedX :=
  ⟨⟨by norm_num [ballNearTop, constructedBoard], by norm_num [ballNearTop, constructedBoard],
      by norm_num [ballNearTop, constructedBoard]⟩,
    (updateBall_walls ballNearTop 0 (by norm_num [ballNearTop, constructedBoard])
      (by norm_num [ballNearTop, constructedBoard])
      (by norm_num [ballNearTop, constructedBoard])).2.2.2⟩

/-! ## C18: the AI paddle -/

section Field

variable {K : Type} [LinearOrderedField K]

/-- C18: when neither `arrowup` nor `arrowdown` is pressed, for every paddle-2
position, ball position, difficulty preset and random draw, `updateAI` sets
`paddle2.y` to `y + (ballY - (y + height/2)) * speed + (r - 0.5) * (1 - accuracy) * 50`
clamped by `Math.max(0, Math.min(., boardHeight - paddleHeight))`, and the result
lies in `[0, boardHeight - paddleHeight]` (the paddle fits the board, as for the
constants 400 and 100). -/
theorem updateAI_clamped (b : Board K) (d : Difficulty) (random : K)
    (hup : b.keys.arrowup = false) (hdown : b.keys.arrowdown = false)
    (hfit : 0 ≤ b.canvas.height - b.paddle2.height) :
    (updateAI b (aiSettings d) random).paddle2.y =
        max 0 (min (b.paddle2.y +
            (b.ball.y - (b.paddle2.y + b.paddle2.height / 2)) * (aiSettings d : AIConfig K).speed +
            (random - 0.5) * (1 - (aiSettings d : AIConfig K).accuracy) * 50)
          (b.canvas.height - b.paddle2.height)) ∧
      0 ≤ (updateAI b (aiSettings d) random).paddle2.y ∧
      (updateAI b (aiSettings d) random).paddle2.y ≤ b.canvas.height - b.paddle2.height := by
  have hy : (updateAI b (aiSettings d) random).paddle2.y =
        max 0 (min (b.paddle2.y +
            (b.ball.y - (b.paddle2.y + b.paddle2.height / 2)) * (aiSettings d : AIConfig K).speed +
            (random - 0.5) * (1 - (aiSettings d : AIConfig K).accuracy) * 50)
          (b.canvas.height - b.paddle2.height)) := by
    simp [updateAI, hup, hdown]
  rw [hy]
  exact ⟨rfl, le_max_left _ _, max_le hfit (min_le_right _ _)⟩

end Field

/-- C18 at a concrete input: the constructed board, medium difficulty, draw 1/4. -/
theorem updateAI_clamped_witness :
    ((constructedBoard : Board ℚ).keys.arrowup = false ∧
      (constructedBoard : Board ℚ).keys.arrowdown = false ∧
      0 ≤ (constructedBoard : Board ℚ).canvas.height - (constructedBoard : Board ℚ).paddle2.height) ∧
    (0 ≤ (updateAI (constructedBoard : Board ℚ) (aiSettings Difficulty.medium) (1 / 4)).paddle2.y ∧
      (updateAI (constructedBoard : Board ℚ) (aiSettings Difficulty.medium) (1 / 4)).paddle2.y ≤
        (constructedBoard : Board ℚ).canvas.height - (constructedBoard : Board ℚ).paddle2.height) :=
  ⟨⟨rfl, rfl, by norm_num [constructedBoard]⟩,
    (updateAI_clamped (constructedBoard : Board ℚ) Difficulty.medium (1 / 4) rfl rfl
      (by norm_num [constructedBoard])).2⟩


/-! ## C21 and C22: paddle collisions -/

theorem checkCollisions_eq (b : Board ℝ) :
    checkCollisions b =
      if hitsPaddle2 (if hitsPaddle1 b then handlePaddleCollision b PaddleRef.paddle1 else b) then
        handlePaddleCollision
          (if hitsPaddle1 b then handlePaddleCollision b PaddleRef.paddle1 else b) PaddleRef.paddle2
      else (if hitsPaddle1 b then handlePaddleCollision b PaddleRef.paddle1 else b) := rfl

section Field
variable {K : Type} [LinearOrderedField K]

/-- The normalised offset is between -1 and 1 when the ball's centre is level with
the paddle. -/
theorem relativeIntersectY_bounds (b : Board K) (r : PaddleRef)
    (hh : 0 < (b.paddle r).height) (hy1 : (b.paddle r).y ≤ b.ball.y)
    (hy2 : b.ball.y ≤ (b.paddle r).y + (b.paddle r).height) :
    -1 ≤ relativeIntersectY b r ∧ relativeIntersectY b r ≤ 1 := by
  have h2 : 0 < (b.paddle r).height / 2 := by positivity
  unfold relativeIntersectY
  rw [le_div_iff₀ h2, div_le_iff₀ h2]
  constructor <;> linarith

theorem relativeIntersectY_edges (b : Board K) (r : PaddleRef)
    (hh : 0 < (b.paddle r).height) :
    (b.ball.y = (b.paddle r).y → relativeIntersectY b r = -1) ∧
    (b.ball.y = (b.paddle r).y + (b.paddle r).height / 2 → relativeIntersectY b r = 0) ∧
    (b.ball.y = (b.paddle r).y + (b.paddle r).height → relativeIntersectY b r = 1) := by
  have h2 : (b.paddle r).height / 2 ≠ 0 := by positivity
  unfold relativeIntersectY
  refine ⟨fun h => ?_, fun h => ?_, fun h => ?_⟩
  · rw [h, div_eq_iff h2]; ring
  · rw [h, div_eq_iff h2]; ring
  · rw [h, div_eq_iff h2]; ring

end Field

/-- The velocity and position `handlePaddleCollision` assigns, with the local
`relativeIntersectY` named. -/
theorem handlePaddleCollision_ball (b : Board ℝ) (r : PaddleRef) :
    (handlePaddleCollision b r).ball.speedX =
      Real.cos (relativeIntersectY b r * (Real.pi / 3)) *
        min (ballSpeed b.ball * 1.05) b.ball.maxSpeed *
        (if r = PaddleRef.paddle1 then 1 else -1) ∧
    (handlePaddleCollision b r).ball.speedY =
      Real.sin (relativeIntersectY b r * (Real.pi / 3)) *
        min (ballSpeed b.ball * 1.05) b.ball.maxSpeed ∧
    (handlePaddleCollision b r).ball.x =
      (if r = PaddleRef.paddle1 then (b.paddle r).x + (b.paddle r).width + b.ball.radius
        else (b.paddle r).x - b.ball.radius) ∧
    (handlePaddleCollision b r).ball.y = b.ball.y ∧
    (handlePaddleCollision b r).ball.radius = b.ball.radius ∧
    (handlePaddleCollision b r).paddle1 = b.paddle1 ∧
    (handlePaddleCollision b r).paddle2 = b.paddle2 := by
  cases r
  · simp [handlePaddleCollision, relativeIntersectY]
  · have hne : ¬ ((-1 : ℝ) = 1) := by norm_num
    simp [handlePaddleCollision, relativeIntersectY, hne]

/-- The cosine of the outgoing angle is at least one half. -/
theorem cos_bounce_pos (t : ℝ) (h1 : -1 ≤ t) (h2 : t ≤ 1) :
    0 < Real.cos (t * (Real.pi / 3)) := by
  have hpi := Real.pi_pos
  apply Real.cos_pos_of_mem_Ioo
  constructor
  · nlinarith
  · nlinarith

theorem ballSpeed_pos (ball : Ball ℝ) (h : ball.speedX ≠ 0) : 0 < ballSpeed ball := by
  unfold ballSpeed
  apply Real.sqrt_pos.2
  have := mul_self_pos.2 h
  have := mul_self_nonneg ball.speedY
  linarith

/-- The speed `handlePaddleCollision` gives the ball is positive when the ball was
moving horizontally and `maxSpeed` is positive. -/
theorem newSpeed_pos (b : Board ℝ) (hmax : 0 < b.ball.maxSpeed) (hx : b.ball.speedX ≠ 0) :
    0 < min (ballSpeed b.ball * 1.05) b.ball.maxSpeed :=
  lt_min (mul_pos (ballSpeed_pos b.ball hx) (by norm_num)) hmax

/-- After a collision with paddle 1 the ball sits flush on the paddle's right edge
and moves right. -/
theorem handle_paddle1 (b : Board ℝ) (hmax : 0 < b.ball.maxSpeed)
    (hh : 0 < b.paddle1.height) (hit : hitsPaddle1 b) :
    (handlePaddleCollision b PaddleRef.paddle1).ball.x =
        b.paddle1.x + b.paddle1.width + b.ball.radius ∧
      0 < (handlePaddleCollision b PaddleRef.paddle1).ball.speedX := by
  obtain ⟨hsx, _, hx, _⟩ := handlePaddleCollision_ball b PaddleRef.paddle1
  obtain ⟨_, _, hy1, hy2, hneg⟩ := hit
  have hb := relativeIntersectY_bounds b PaddleRef.paddle1 hh hy1 hy2
  refine ⟨by rw [hx]; simp [Board.paddle], ?_⟩
  rw [hsx]
  simp only [if_true, mul_one]
  exact mul_pos (cos_bounce_pos _ hb.1 hb.2) (newSpeed_pos b hmax (ne_of_lt hneg))

/-- After a collision with paddle 2 the ball sits flush on the paddle's left edge
and moves left. -/
theorem handle_paddle2 (b : Board ℝ) (hmax : 0 < b.ball.maxSpeed)
    (hh : 0 < b.paddle2.height) (hit : hitsPaddle2 b) :
    (handlePaddleCollision b PaddleRef.paddle2).ball.x = b.paddle2.x - b.ball.radius ∧
      (handlePaddleCollision b PaddleRef.paddle2).ball.speedX < 0 := by
  obtain ⟨hsx, _, hx, _⟩ := handlePaddleCollision_ball b PaddleRef.paddle2
  obtain ⟨_, _, hy1, hy2, hpos⟩ := hit
  have hb := relativeIntersectY_bounds b PaddleRef.paddle2 hh hy1 hy2
  refine ⟨by rw [hx]; simp [Board.paddle], ?_⟩
  rw [hsx]
  simp only [reduceCtorEq, if_false, mul_neg, mul_one]
  exact neg_neg_of_pos
    (mul_pos (cos_bounce_pos _ hb.1 hb.2) (newSpeed_pos b hmax (ne_of_gt hpos)))

/-- C21: whenever `checkCollisions` resolves a collision with paddle 1, afterwards
`ball.x = paddle1.x + paddle1.width + radius` and `ball.speedX > 0`; whenever it
resolves one with paddle 2, afterwards `ball.x = paddle2.x - radius` and
`ball.speedX < 0`; so the collision test of the same paddle is false on the
resulting state.  `maxSpeed` and the paddle heights are positive and the paddles are
more than a ball's width apart, as for the constants of the constructor (8, 100,
and 20 + 15 + 16 < 765). -/
theorem checkCollisions_flush (b : Board ℝ)
    (hmax : 0 < b.ball.maxSpeed) (hh1 : 0 < b.paddle1.height) (hh2 : 0 < b.paddle2.height)
    (hapart : b.paddle1.x + b.paddle1.width + 2 * b.ball.radius < b.paddle2.x) :
    (hitsPaddle1 b →
      (checkCollisions b).ball.x = b.paddle1.x + b.paddle1.width + b.ball.radius ∧
      0 < (checkCollisions b).ball.speedX ∧ ¬ hitsPaddle1 (checkCollisions b)) ∧
    (hitsPaddle2 b →
      (checkCollisions b).ball.x = b.paddle2.x - b.ball.radius ∧
      (checkCollisions b).ball.speedX < 0 ∧ ¬ hitsPaddle2 (checkCollisions b)) := by
  constructor
  · intro hit
    obtain ⟨hx, hpos⟩ := handle_paddle1 b hmax hh1 hit
    obtain ⟨_, _, _, _, hrad, _, hp2⟩ := handlePaddleCollision_ball b PaddleRef.paddle1
    have hno2 : ¬ hitsPaddle2 (handlePaddleCollision b PaddleRef.paddle1) := by
      intro h
      have h1 := h.1
      rw [hx, hrad, hp2] at h1
      linarith
    rw [checkCollisions_eq, if_pos hit, if_neg hno2]
    exact ⟨hx, hpos, fun h => absurd h.2.2.2.2 (not_lt.2 (le_of_lt hpos))⟩
  · intro hit
    have hno1 : ¬ hitsPaddle1 b := fun h => absurd h.2.2.2.2 (not_lt.2 (le_of_lt hit.2.2.2.2))
    obtain ⟨hx, hneg⟩ := handle_paddle2 b hmax hh2 hit
    rw [checkCollisions_eq, if_neg hno1, if_pos hit]
    exact ⟨hx, hneg, fun h => absurd h.2.2.2.2 (not_lt.2 (le_of_lt hneg))⟩

/-- C21 at a concrete input: the ball arrives at paddle 1. -/
theorem checkCollisions_flush_witness :
    (0 < (incomingBoard : Board ℝ).ball.maxSpeed ∧
      0 < (incomingBoard : Board ℝ).paddle1.height ∧
      0 < (incomingBoard : Board ℝ).paddle2.height ∧
      (incomingBoard : Board ℝ).paddle1.x + (incomingBoard : Board ℝ).paddle1.width +
        2 * (incomingBoard : Board ℝ).ball.radius < (incomingBoard : Board ℝ).paddle2.x ∧
      hitsPaddle1 (incomingBoard : Board ℝ)) ∧
    ((checkCollisions (incomingBoard : Board ℝ)).ball.x =
        (incomingBoard : Board ℝ).paddle1.x + (incomingBoard : Board ℝ).paddle1.width +
          (incomingBoard : Board ℝ).ball.radius ∧
      0 < (checkCollisions (incomingBoard : Board ℝ)).ball.speedX ∧
      ¬ hitsPaddle1 (checkCollisions (incomingBoard : Board ℝ))) :=
  ⟨⟨by norm_num [incomingBoard], by norm_num [incomingBoard, constructedBoard],
      by norm_num [incomingBoard, constructedBoard],
      by norm_num [incomingBoard, constructedBoard],
      by norm_num [hitsPaddle1, incomingBoard, constructedBoard]⟩,
    (checkCollisions_flush (incomingBoard : Board ℝ) (by norm_num [incomingBoard])
      (by norm_num [incomingBoard, constructedBoard])
      (by norm_num [incomingBoard, constructedBoard])
      (by norm_num [incomingBoard, constructedBoard])).1
      (by norm_num [hitsPaddle1, incomingBoard, constructedBoard])⟩

set_option maxRecDepth 100000 in
/-- Sample values of the double rounding: `100` is kept, `0.1 + 0.2` is
`0.30000000000000004`, and the literal `14.001` denotes `7881862297851789 / 2^49`. -/
theorem roundDouble_examples :
    roundDouble (Frac.ofInt 100) = { num := 7036874417766400, den := 2 ^ 46 } ∧
    jsAdd (roundDouble { num := 1, den := 10 }) (roundDouble { num := 2, den := 10 }) =
      { num := 5404319552844596, den := 2 ^ 54 } ∧
    y14001 = { num := 7881862297851789, den := 2 ^ 49 } := by
  decide

set_option maxRecDepth 100000 in
/-- C22 as stated fails in the arithmetic the program runs in: with
`ball.y = paddle.y = 14.001` and `paddle.height = 100` the guard of `checkCollisions`
holds (`ball.y >= paddle.y`, `ball.y <= paddle.y + paddle.height`), the ball is at the
paddle's top edge, and line 347 evaluated in IEEE doubles gives
`-(2^52 + 1) / 2^52 = -1.0000000000000002`, which is below -1 and is not -1. -/
theorem relativeIntersectY_double_counterexample :
    Frac.le y14001 y14001 ∧
    Frac.le y14001 (jsAdd y14001 (Frac.ofInt 100)) ∧
    Frac.lt (Frac.ofInt 0) (Frac.ofInt 100) ∧
    relativeIntersectYDouble y14001 y14001 (Frac.ofInt 100) =
      { num := -4503599627370497, den := 2 ^ 52 } ∧
    Frac.lt (relativeIntersectYDouble y14001 y14001 (Frac.ofInt 100)) (Frac.ofInt (-1)) ∧
    relativeIntersectYDouble y14001 y14001 (Frac.ofInt 100) ≠ Frac.ofInt (-1) := by
  decide

/-- C22 amended: in real arithmetic (rounding left out), for every call of
`handlePaddleCollision` made by `checkCollisions` (the collision test of that paddle
holds, so `ball.y` is between `paddle.y` and `paddle.y + paddle.height`) with
`paddle.height > 0`, the local `relativeIntersectY` lies in `[-1, 1]`; it is -1 at
the paddle's top edge, 0 at its centre and 1 at its bottom edge; it is the value the
new velocity is computed from. -/
theorem relativeIntersectY_range (b : Board ℝ) (r : PaddleRef)
    (hh : 0 < (b.paddle r).height)
    (hcall : (r = PaddleRef.paddle1 ∧ hitsPaddle1 b) ∨ (r = PaddleRef.paddle2 ∧ hitsPaddle2 b)) :
    (-1 ≤ relativeIntersectY b r ∧ relativeIntersectY b r ≤ 1) ∧
    (b.ball.y = (b.paddle r).y → relativeIntersectY b r = -1) ∧
    (b.ball.y = (b.paddle r).y + (b.paddle r).height / 2 → relativeIntersectY b r = 0) ∧
    (b.ball.y = (b.paddle r).y + (b.paddle r).height → relativeIntersectY b r = 1) ∧
    (handlePaddleCollision b r).ball.speedY =
      Real.sin (relativeIntersectY b r * (Real.pi / 3)) *
        min (ballSpeed b.ball * 1.05) b.ball.maxSpeed := by
  have hy : (b.paddle r).y ≤ b.ball.y ∧ b.ball.y ≤ (b.paddle r).y + (b.paddle r).height := by
    rcases hcall with ⟨hr, hit⟩ | ⟨hr, hit⟩
    · subst hr; exact ⟨hit.2.2.1, hit.2.2.2.1⟩
    · subst hr; exact ⟨hit.2.2.1, hit.2.2.2.1⟩
  obtain ⟨e1, e2, e3⟩ := relativeIntersectY_edges b r hh
  exact ⟨relativeIntersectY_bounds b r hh hy.1 hy.2, e1, e2, e3,
    (handlePaddleCollision_ball b r).2.1⟩

/-- C22 amended, at a concrete input: the ball hits paddle 1 twenty pixels above its
centre. -/
theorem relativeIntersectY_range_witness :
    (0 < ((incomingBoard : Board ℝ).paddle PaddleRef.paddle1).height ∧
      hitsPaddle1 (incomingBoard : Board ℝ)) ∧
    (-1 ≤ relativeIntersectY (incomingBoard : Board ℝ) PaddleRef.paddle1 ∧
      relativeIntersectY (incomingBoard : Board ℝ) PaddleRef.paddle1 ≤ 1) :=
  ⟨⟨by norm_num [incomingBoard, constructedBoard, Board.paddle],
      by norm_num [hitsPaddle1, incomingBoard, constructedBoard]⟩,
    (relativeIntersectY_range (incomingBoard : Board ℝ) PaddleRef.paddle1
      (by norm_num [incomingBoard, constructedBoard, Board.paddle])
      (Or.inl ⟨rfl, by norm_num [hitsPaddle1, incomingBoard, constructedBoard]⟩)).1⟩

/-! ## C23: the records of the set history -/

theorem stopsAtGameOver_append (g : Game) (ps : List Nat) (p : Nat) :
    stopsAtGameOver g (ps ++ [p]) = true ↔
      stopsAtGameOver g ps = true ∧ (play g ps).gameState ≠ GameState.gameOver := by
  induction ps generalizing g with
  | nil => simp [stopsAtGameOver, play]
  | cons q qs ih =>
    show (decide (g.gameState ≠ GameState.gameOver) &&
        stopsAtGameOver (scorePoint g q) (qs ++ [p])) = true ↔
      (decide (g.gameState ≠ GameState.gameOver) &&
        stopsAtGameOver (scorePoint g q) qs) = true ∧
      (play (scorePoint g q) qs).gameState ≠ GameState.gameOver
    rw [Bool.and_eq_true, Bool.and_eq_true, ih]
    tauto

/-- The record `endSet` pushes: the set index, the two scores and the player with
the higher score. -/
theorem endSet_record (g : Game) :
    (endSet g).gameStats.setsHistory = g.gameStats.setsHistory ++
      [{ set := g.gameStats.currentSet, player1Score := g.score.player1,
         player2Score := g.score.player2,
         winner := if g.score.player1 > g.score.player2 then 1 else 2 }] := by
  simp only [endSet, endMatch, showSetWinMessage]
  split_ifs <;> rfl

theorem checkSetWin_updateServing (g : Game) : checkSetWin (updateServing g) = checkSetWin g := by
  simp only [checkSetWin, (updateServing_frame g).2.2.1, (updateServing_frame g).2.2.2.1]

/-- After `endSet` the match is over or the score is back at 0-0. -/
theorem endSet_over_or_zero (g : Game) :
    (endSet g).gameState = GameState.gameOver ∨
      (endSet g).score = { player1 := 0, player2 := 0 } := by
  simp only [endSet, endMatch, showSetWinMessage]
  split_ifs <;> simp

theorem checkSetWin_zero (g : Game) (h : g.score = { player1 := 0, player2 := 0 }) :
    checkSetWin g = false := by
  simp [checkSetWin, h]

theorem noWinInv_scorePoint (g : Game) (p : Nat) : NoWinInv (scorePoint g p) := by
  intro hlive2
  rw [scorePoint_eq] at hlive2 ⊢
  split_ifs at hlive2 ⊢ with hw
  · rcases endSet_over_or_zero (updateServing (awarded g p)) with h | h
    · exact absurd h hlive2
    · exact checkSetWin_zero _ h
  · simpa using hw

theorem noWinInv_newGame (g : Game) : NoWinInv (newGame g) := by
  intro _
  simp [checkSetWin, newGame, initializeGame, resetServing]

theorem noWinInv_play (g : Game) (ps : List Nat) (hinv : NoWinInv g)
    (hstop : stopsAtGameOver g ps = true) : NoWinInv (play g ps) := by
  induction ps generalizing g with
  | nil => exact hinv
  | cons p ps ih =>
    simp only [stopsAtGameOver, Bool.and_eq_true, decide_eq_true_eq] at hstop
    rw [play_cons]
    exact ih _ (noWinInv_scorePoint g p) hstop.2

/-- One call on a state whose score does not satisfy the win condition: either no
record is pushed, or the pushed record names the scorer as winner with the score
`max pointsToWin (loser + 2)`. -/
theorem scorePoint_record (g : Game) (p : Nat) (hnw : checkSetWin g = false) :
    (scorePoint g p).gameStats.setsHistory = g.gameStats.setsHistory ∨
    ∃ rec : SetRecord,
      (scorePoint g p).gameStats.setsHistory = g.gameStats.setsHistory ++ [rec] ∧
      rec.winner = scorer p ∧
      (rec.winner = 1 → rec.player1Score = max g.settings.pointsToWin (rec.player2Score + 2)) ∧
      (rec.winner = 2 → rec.player2Score = max g.settings.pointsToWin (rec.player1Score + 2)) := by
  rw [scorePoint_eq]
  split_ifs with hw
  · right
    refine ⟨_, by rw [endSet_record, (updateServing_frame _).2.2.2.2.2, awarded_history], ?_⟩
    rw [checkSetWin_updateServing] at hw
    simp only [(updateServing_frame _).2.2.2.1]
    simp only [checkSetWin, Bool.or_eq_true, Bool.and_eq_true, decide_eq_true_eq,
      Bool.or_eq_false_iff, Bool.and_eq_false_iff, decide_eq_false_iff_not] at hw hnw
    rw [awarded_settings] at hw
    by_cases hp : p = 1
    · subst hp
      rw [awarded_score_one] at hw ⊢
      simp only [scorer, if_true] at hw ⊢
      have hgt : g.score.player1 + 1 > g.score.player2 := by omega
      rw [if_pos hgt]
      refine ⟨rfl, fun _ => ?_, fun h => absurd h (by decide)⟩
      rw [Nat.max_def]
      split_ifs <;> omega
    · have hp2 : awarded g p = awarded g 2 := by simp [awarded, hp]
      rw [hp2, awarded_score_two] at hw ⊢
      simp only [scorer, hp, if_false] at hw ⊢
      have hle : ¬ g.score.player1 > g.score.player2 + 1 := by omega
      rw [if_neg hle]
      refine ⟨rfl, fun h => absurd h (by decide), fun _ => ?_⟩
      rw [Nat.max_def]
      split_ifs <;> omega
  · left
    rw [(updateServing_frame _).2.2.2.2.2, awarded_history]

theorem history_play_append (g : Game) (ps : List Nat) (p : Nat) :
    play g (ps ++ [p]) = scorePoint (play g ps) p := by
  rw [play_append]; rfl

/-- C23: in a match started by `newGame` and played by `scorePoint` calls up to the
first `gameOver`, every record of `setsHistory` was appended by a call whose scoring
player is the record's winner (the player who scored the set's last point), and the
winner's recorded score equals `max(pointsToWin, loser's recorded score + 2)`. -/
theorem set_records_winner_score (g0 : Game) (ps : List Nat)
    (hstop : stopsAtGameOver (newGame g0) ps = true) :
    ∀ rec ∈ (play (newGame g0) ps).gameStats.setsHistory,
      ∃ (qs : List Nat) (p : Nat) (rest : List Nat),
        ps = qs ++ p :: rest ∧
        (play (newGame g0) (qs ++ [p])).gameStats.setsHistory =
          (play (newGame g0) qs).gameStats.setsHistory ++ [rec] ∧
        rec.winner = scorer p ∧
        (rec.winner = 1 →
          rec.player1Score = max g0.settings.pointsToWin (rec.player2Score + 2)) ∧
        (rec.winner = 2 →
          rec.player2Score = max g0.settings.pointsToWin (rec.player1Score + 2)) := by
  induction ps using List.reverseRecOn with
  | nil => intro rec hrec; simp [play, newGame, initializeGame, resetServing] at hrec
  | append_singleton ps p ih =>
    rw [stopsAtGameOver_append] at hstop
    have hnw := noWinInv_play (newGame g0) ps (noWinInv_newGame g0) hstop.1 hstop.2
    have hset : (play (newGame g0) ps).settings = g0.settings := by
      rw [play_settings, newGame_settings]
    intro rec hrec
    rw [history_play_append] at hrec
    have hold : rec ∈ (play (newGame g0) ps).gameStats.setsHistory →
        ∃ (qs : List Nat) (q : Nat) (rest : List Nat),
          ps ++ [p] = qs ++ q :: rest ∧
          (play (newGame g0) (qs ++ [q])).gameStats.setsHistory =
            (play (newGame g0) qs).gameStats.setsHistory ++ [rec] ∧
          rec.winner = scorer q ∧
          (rec.winner = 1 →
            rec.player1Score = max g0.settings.pointsToWin (rec.player2Score + 2)) ∧
          (rec.winner = 2 →
            rec.player2Score = max g0.settings.pointsToWin (rec.player1Score + 2)) := by
      intro hmem
      obtain ⟨qs, q, rest, hps, hrest⟩ := ih hstop.1 rec hmem
      exact ⟨qs, q, rest ++ [p], by rw [hps]; simp, hrest⟩
    rcases scorePoint_record (play (newGame g0) ps) p hnw with hsame | ⟨r, hpush, hw, h1, h2⟩
    · rw [hsame] at hrec
      exact hold hrec
    · rw [hpush, List.mem_append, List.mem_singleton] at hrec
      rcases hrec with hmem | heq
      · exact hold hmem
      · subst heq
        rw [hset] at h1 h2
        exact ⟨ps, p, [], rfl, by rw [history_play_append]; exact hpush, hw, h1, h2⟩

set_option maxRecDepth 100000 in
/-- C23 at a concrete match: best of three, won 11-5 and 11-7 by player 1. -/
theorem set_records_winner_score_witness :
    stopsAtGameOver (newGame bestOfThree) twoSetsToOne = true ∧
    ∀ rec ∈ (play (newGame bestOfThree) twoSetsToOne).gameStats.setsHistory,
      ∃ (qs : List Nat) (p : Nat) (rest : List Nat),
        twoSetsToOne = qs ++ p :: rest ∧
        (play (newGame bestOfThree) (qs ++ [p])).gameStats.setsHistory =
          (play (newGame bestOfThree) qs).gameStats.setsHistory ++ [rec] ∧
        rec.winner = scorer p ∧
        (rec.winner = 1 →
          rec.player1Score = max bestOfThree.settings.pointsToWin (rec.player2Score + 2)) ∧
        (rec.winner = 2 →
          rec.player2Score = max bestOfThree.settings.pointsToWin (rec.player1Score + 2)) :=
  ⟨by decide, set_records_winner_score bestOfThree twoSetsToOne (by decide)⟩


end TableTennis
